import Mathlib

/-!
# Verification of the flower-hackathon-2025 image-review core

A shallow embedding, in Lean 4, of the two subsystems the specification
calls THE CORE of the repository:

* the stratified cohort sampler (`generate_seed_data.py`,
  `stratified_patient_selection`), and
* the dual-model inference / persistence / review-status pipeline
  (`api/ml/model.py`, `api/services/prediction_service.py`,
  `api/services/patient_service.py`).

Modelling conventions, stated once here and referenced below:

* Machine floats (probabilities, proportions) are modelled as exact
  rationals (`ℚ`); Python's `int(x)` on a nonnegative product
  `target_count * (count / total)` is modelled as Nat division
  `target_count * count / total` (exact floor).
* `pandas.DataFrame.sample(n=..., random_state=seed)` is an external
  library routine, treated — like the two neural scorers — as an injected
  black box: a `Sampler` argument, constrained only by the contract of
  seeded sampling without replacement (`ValidSampler`).
* Wall-clock timestamps (`datetime.now`) are an abstract `Nat` passed in
  by the caller.
* The SQL database reachable from a request session is a record of row
  lists (`DB`).  `session.exec(select(...)).first()` is `List.find?`;
  updating a fetched ORM row mutates the matching stored row in place;
  `session.add` + `flush` appends a row with a fresh primary key.  A
  request whose handler raises before `commit` leaves the committed
  database unchanged (FastAPI's `get_session` context manager closes the
  transaction without committing), which is modelled by the `Except`
  result: on `.error` the caller keeps the pre-call `DB`.
-/

namespace FlowerHackathon

/-! ## Part 1: CohortSampler (`generate_seed_data.stratified_patient_selection`)

The input population is `profiles_df`: one entry per distinct patient,
carrying the patient id and the patient's finding-profile key (the
sorted, pipe-joined set of distinct findings over the patient's images,
built by `get_patient_finding_profile` / `finding_key`). -/

/-- One row of `profiles_df` in `stratified_patient_selection`: a distinct
patient together with the precomputed finding-profile key. -/
structure PatientProfile where
  patient_id : Nat
  finding_key : String
deriving Repr, DecidableEq

/-- A seeded without-replacement sampling routine: the embedding of
`DataFrame.sample(n=n, random_state=seed)`, injected as a black box
exactly as the specification treats the neural scorers. -/
structure Sampler where
  samp : Nat → List Nat → Nat → List Nat

/-- The contract of seeded sampling without replacement, the behaviour
`pandas` documents for `sample(n, random_state)` when `n` does not exceed
the population: the result has exactly `n` entries, they are drawn from
the input, and drawing without replacement repeats no input position (so
a duplicate-free input yields a duplicate-free sample). -/
def ValidSampler (S : Sampler) : Prop :=
  ∀ seed (l : List Nat) (n : Nat), n ≤ l.length →
    (S.samp seed l n).length = n ∧ (S.samp seed l n) ⊆ l ∧
      (l.Nodup → (S.samp seed l n).Nodup)

/-- A concrete valid sampler (deterministic head-taking), used to run the
embedded algorithm on closed inputs. -/
def takeSampler : Sampler := ⟨fun _ l n => l.take n⟩

/-- `profiles_df["patient_id"]`. -/
def popIds (pop : List PatientProfile) : List Nat :=
  pop.map (·.patient_id)

/-- The distinct finding-profile keys of the population
(`profile_counts = profiles_df["finding_key"].value_counts()`; the order
in which the Python loop visits the keys — `value_counts` orders by
descending count — is irrelevant to every property proved below, and is
modelled as first-occurrence order). -/
def groupKeys (pop : List PatientProfile) : List String :=
  (pop.map (·.finding_key)).dedup

/-- `profiles_df[profiles_df["finding_key"] == finding_key]`, projected to
patient ids (the loop extends `selected_patients` with the sampled rows'
`patient_id`s). -/
def groupMembers (pop : List PatientProfile) (k : String) : List Nat :=
  (pop.filter (fun p => p.finding_key == k)).map (·.patient_id)

/-- `target_for_profile = max(1, int(target_count * proportion))` with
`proportion = count / total_patients`; the float truncation is modelled
as exact Nat (floor) division. -/
def quotaFor (target total count : Nat) : Nat :=
  max 1 (target * count / total)

/-- `n_to_sample = min(target_for_profile, len(profile_patients))`. -/
def nToSample (pop : List PatientProfile) (target : Nat) (k : String) : Nat :=
  min (quotaFor target pop.length (groupMembers pop k).length)
    (groupMembers pop k).length

/-- One iteration of the per-profile loop:
`sampled = profile_patients.sample(n=n_to_sample, random_state=random_state)`,
projected to the extended `patient_id`s. -/
def chunk (S : Sampler) (seed : Nat) (pop : List PatientProfile) (target : Nat)
    (k : String) : List Nat :=
  S.samp seed (groupMembers pop k) (nToSample pop target k)

/-- Step 3 of the sampler: the per-profile loop
`for finding_key, count in profile_counts.items(): ... sampled =
profile_patients.sample(n=n_to_sample, random_state=random_state);
selected_patients.extend(...)` — a concatenation of one seeded sample per
profile group. -/
def step3 (S : Sampler) (seed : Nat) (pop : List PatientProfile) (target : Nat) :
    List Nat :=
  (groupKeys pop).flatMap (chunk S seed pop target)

/-- The backfill loop
`while len(selected_patients) < target_count: remaining = ...;
if len(remaining) == 0: break; additional = remaining.sample(n=1, ...)`.
The Python loop adds one patient per iteration, so `target` iterations of
fuel always suffice; the fuel argument only makes the recursion
structural. -/
def backfill (S : Sampler) (seed : Nat) (pop : List PatientProfile) (target : Nat) :
    Nat → List Nat → List Nat
  | 0, sel => sel
  | fuel + 1, sel =>
    if sel.length < target then
      if ((popIds pop).filter (fun i => ¬ sel.contains i)).isEmpty then sel
      else
        backfill S seed pop target fuel
          (sel ++ S.samp seed ((popIds pop).filter (fun i => ¬ sel.contains i)) 1)
    else sel

/-- `stratified_patient_selection`, from `profiles_df` on: step 3
(per-group quota sampling), step 4a (seeded downsample when over target),
step 4b (backfill while under target). -/
def stratifiedSelect (S : Sampler) (seed : Nat) (pop : List PatientProfile)
    (target : Nat) : List Nat :=
  let sel := step3 S seed pop target
  let sel := if target < sel.length then S.samp seed sel target else sel
  backfill S seed pop target target sel

/-! ### Basic facts about the sampler embedding -/

theorem takeSampler_valid : ValidSampler takeSampler := by
  intro seed l n hn
  refine ⟨by simpa [takeSampler] using Nat.min_eq_left hn, List.take_subset n l, ?_⟩
  intro h
  exact (List.take_sublist n l).nodup h

theorem groupMembers_sublist (pop : List PatientProfile) (k : String) :
    List.Sublist (groupMembers pop k) (popIds pop) :=
  (List.filter_sublist pop).map _

theorem groupMembers_nodup {pop : List PatientProfile} {k : String}
    (hpop : (popIds pop).Nodup) : (groupMembers pop k).Nodup :=
  (groupMembers_sublist pop k).nodup hpop

theorem mem_groupKeys {pop : List PatientProfile} {k : String} :
    k ∈ groupKeys pop ↔ ∃ p ∈ pop, p.finding_key = k := by
  simp [groupKeys, List.mem_dedup]

theorem groupMembers_ne_nil {pop : List PatientProfile} {k : String}
    (hk : k ∈ groupKeys pop) : groupMembers pop k ≠ [] := by
  obtain ⟨p, hp, hpk⟩ := mem_groupKeys.1 hk
  have hmem : p.patient_id ∈ groupMembers pop k := by
    simp only [groupMembers, List.mem_map, List.mem_filter]
    exact ⟨p, ⟨hp, by simp [hpk]⟩, rfl⟩
  intro hnil
  rw [hnil] at hmem
  exact List.not_mem_nil _ hmem

theorem one_le_length_groupMembers {pop : List PatientProfile} {k : String}
    (hk : k ∈ groupKeys pop) : 1 ≤ (groupMembers pop k).length :=
  List.length_pos.2 (groupMembers_ne_nil hk)

theorem groupMembers_disjoint {pop : List PatientProfile} {k₁ k₂ : String}
    (hpop : (popIds pop).Nodup) (hne : k₁ ≠ k₂) :
    List.Disjoint (groupMembers pop k₁) (groupMembers pop k₂) := by
  intro x hx₁ hx₂
  simp only [groupMembers, List.mem_map, List.mem_filter, beq_iff_eq] at hx₁ hx₂
  obtain ⟨p₁, ⟨hp₁, hpk₁⟩, hid₁⟩ := hx₁
  obtain ⟨p₂, ⟨hp₂, hpk₂⟩, hid₂⟩ := hx₂
  have hp : p₁ = p₂ :=
    List.inj_on_of_nodup_map hpop hp₁ hp₂ (hid₁.trans hid₂.symm)
  exact hne ((hpk₁.symm.trans (by rw [hp])).trans hpk₂)

theorem nToSample_le (pop : List PatientProfile) (target : Nat) (k : String) :
    nToSample pop target k ≤ (groupMembers pop k).length :=
  min_le_right _ _

theorem one_le_nToSample {pop : List PatientProfile} {target : Nat} {k : String}
    (hk : k ∈ groupKeys pop) : 1 ≤ nToSample pop target k :=
  le_min (le_max_left _ _) (one_le_length_groupMembers hk)

theorem chunk_length {S : Sampler} (hS : ValidSampler S) (seed : Nat)
    (pop : List PatientProfile) (target : Nat) (k : String) :
    (chunk S seed pop target k).length = nToSample pop target k :=
  (hS seed _ _ (nToSample_le pop target k)).1

theorem chunk_subset {S : Sampler} (hS : ValidSampler S) (seed : Nat)
    (pop : List PatientProfile) (target : Nat) (k : String) :
    chunk S seed pop target k ⊆ groupMembers pop k :=
  (hS seed _ _ (nToSample_le pop target k)).2.1

theorem chunk_nodup {S : Sampler} (hS : ValidSampler S) (seed : Nat)
    {pop : List PatientProfile} (target : Nat) (k : String)
    (hpop : (popIds pop).Nodup) : (chunk S seed pop target k).Nodup :=
  (hS seed _ _ (nToSample_le pop target k)).2.2 (groupMembers_nodup hpop)

theorem step3_subset {S : Sampler} (hS : ValidSampler S) (seed : Nat)
    (pop : List PatientProfile) (target : Nat) :
    step3 S seed pop target ⊆ popIds pop := by
  intro x hx
  obtain ⟨k, _, hxk⟩ := List.mem_flatMap.1 hx
  exact (groupMembers_sublist pop k).subset (chunk_subset hS seed pop target k hxk)

theorem step3_nodup {S : Sampler} (hS : ValidSampler S) (seed : Nat)
    {pop : List PatientProfile} (target : Nat) (hpop : (popIds pop).Nodup) :
    (step3 S seed pop target).Nodup := by
  rw [step3, List.nodup_flatMap]
  refine ⟨fun k _ => chunk_nodup hS seed target k hpop, ?_⟩
  have hkeys : (groupKeys pop).Nodup := List.nodup_dedup _
  refine hkeys.imp ?_
  intro k₁ k₂ hne x hx₁ hx₂
  exact groupMembers_disjoint hpop hne (chunk_subset hS seed pop target k₁ hx₁)
    (chunk_subset hS seed pop target k₂ hx₂)

theorem mem_backfill {S : Sampler} {seed : Nat} {pop : List PatientProfile}
    {target : Nat} {x : Nat} :
    ∀ {fuel : Nat} {sel : List Nat}, x ∈ sel →
      x ∈ backfill S seed pop target fuel sel := by
  intro fuel
  induction fuel with
  | zero => intro sel hx; simpa [backfill] using hx
  | succ n ih =>
    intro sel hx
    rw [backfill]
    split
    · split
      · exact hx
      · exact ih (List.mem_append_left _ hx)
    · exact hx

theorem backfill_length {S : Sampler} {seed : Nat} {pop : List PatientProfile}
    {target : Nat} (hS : ValidSampler S) (hpop : (popIds pop).Nodup) :
    ∀ (fuel : Nat) (sel : List Nat), sel.Nodup → sel ⊆ popIds pop →
      sel.length ≤ target → target - sel.length ≤ fuel →
      (backfill S seed pop target fuel sel).length = min target (popIds pop).length := by
  intro fuel
  induction fuel with
  | zero =>
    intro sel hnd hsub hle hfuel
    have hlen : sel.length = target := by omega
    have hpoplen : sel.length ≤ (popIds pop).length :=
      (List.subperm_of_subset hnd hsub).length_le
    simp [backfill, hlen, Nat.min_eq_left (by omega : target ≤ (popIds pop).length)]
  | succ n ih =>
    intro sel hnd hsub hle hfuel
    rw [backfill]
    by_cases hlt : sel.length < target
    · rw [if_pos hlt]
      by_cases hemp : ((popIds pop).filter (fun i => ¬ sel.contains i)).isEmpty
      · rw [if_pos hemp]
        -- every eligible patient is already selected
        have hall : popIds pop ⊆ sel := by
          intro a ha
          have := List.filter_eq_nil_iff.1 (List.isEmpty_iff.1 hemp) a ha
          simpa using this
        have h₁ : (popIds pop).length ≤ sel.length :=
          (List.subperm_of_subset hpop hall).length_le
        have h₂ : sel.length ≤ (popIds pop).length :=
          (List.subperm_of_subset hnd hsub).length_le
        have : sel.length = (popIds pop).length := le_antisymm h₂ h₁
        rw [this, Nat.min_eq_right (by omega)]
      · rw [if_neg hemp]
        set rem := (popIds pop).filter (fun i => ¬ sel.contains i) with hrem
        have hremne : rem ≠ [] := by
          intro h; rw [h] at hemp; exact hemp rfl
        have hrem1 : 1 ≤ rem.length := List.length_pos.2 hremne
        obtain ⟨hslen, hssub, hsnd⟩ := hS seed rem 1 hrem1
        have hremnd : rem.Nodup := (List.filter_sublist _).nodup hpop
        have hdisj : List.Disjoint sel (S.samp seed rem 1) := by
          intro a ha hb
          have := hssub hb
          rw [hrem] at this
          have := (List.mem_filter.1 this).2
          simp at this
          exact this ha
        refine ih (sel ++ S.samp seed rem 1) (hnd.append (hsnd hremnd) hdisj) ?_ ?_ ?_
        · intro a ha
          rcases List.mem_append.1 ha with h | h
          · exact hsub h
          · exact (List.filter_sublist _).subset (by rw [← hrem]; exact hssub h)
        · rw [List.length_append, hslen]; omega
        · rw [List.length_append, hslen]; omega
    · rw [if_neg hlt]
      have hlen : sel.length = target := by omega
      have hpoplen : sel.length ≤ (popIds pop).length :=
        (List.subperm_of_subset hnd hsub).length_le
      rw [hlen, Nat.min_eq_left (by omega)]

theorem groupKeys_nodup (pop : List PatientProfile) : (groupKeys pop).Nodup :=
  List.nodup_dedup _

theorem countP_flatMap_eq_zero {α β : Type} (p : β → Bool) (f : α → List β)
    {l : List α} (h : ∀ k ∈ l, (f k).countP p = 0) :
    (l.flatMap f).countP p = 0 := by
  induction l with
  | nil => simp
  | cons a l ih =>
    rw [List.flatMap_cons, List.countP_append, h a (List.mem_cons_self a l),
      ih (fun k hk => h k (List.mem_cons_of_mem a hk))]

theorem countP_flatMap_single {α β : Type} (p : β → Bool) (f : α → List β) :
    ∀ {l : List α} {k : α}, l.Nodup → k ∈ l →
      (∀ k' ∈ l, k' ≠ k → (f k').countP p = 0) →
      (l.flatMap f).countP p = (f k).countP p := by
  intro l
  induction l with
  | nil => intro k _ hk; cases hk
  | cons a l ih =>
    intro k hnd hk hzero
    rw [List.flatMap_cons, List.countP_append]
    by_cases hak : a = k
    · subst hak
      have hz : (l.flatMap f).countP p = 0 :=
        countP_flatMap_eq_zero p f fun k' hk' =>
          hzero k' (List.mem_cons_of_mem _ hk')
            (fun h => (List.nodup_cons.1 hnd).1 (h ▸ hk'))
      omega
    · have hk' : k ∈ l := by
        rcases List.mem_cons.1 hk with h | h
        · exact absurd h.symm hak
        · exact h
      have ha0 : (f a).countP p = 0 := hzero a (List.mem_cons_self a l) hak
      have hrest := ih (List.nodup_cons.1 hnd).2 hk'
        (fun k' h1 h2 => hzero k' (List.mem_cons_of_mem a h1) h2)
      omega

/-! ### Populations used to run the sampler on closed inputs -/

/-- Four patients; group "A" has share 3/4 so `target_count=2` gives a
fractional proportional quota of 1.5 — where `int` and `round` differ. -/
def quotaPop : List PatientProfile := [⟨0, "A"⟩, ⟨1, "A"⟩, ⟨2, "A"⟩, ⟨3, "B"⟩]

/-- Four patients in three groups with `target_count=2`: every group gets
its minimum quota of one, so step 3 selects three patients and step 4
downsamples to two, necessarily dropping some group's only
representative. -/
def repPop : List PatientProfile := [⟨0, "A"⟩, ⟨1, "A"⟩, ⟨2, "B"⟩, ⟨3, "C"⟩]

/-- Two patients in two groups. -/
def twoPop : List PatientProfile := [⟨0, "A"⟩, ⟨1, "B"⟩]

/-! ### Claims C2, C3, C8, C9 -/

/-- C2 (amended). In step 3 of `stratified_patient_selection`, for every
profile group the number of subjects drawn from that group equals
`max(1, floor(target_count * group_share))` — the code truncates the
proportional quota with `int(...)`, it does not round to nearest — capped
at the group's size.  (`group_share = count / total`; the floor of
`target_count * count / total` is Nat division.) -/
theorem step3_group_draw_count {S : Sampler} (hS : ValidSampler S) (seed : Nat)
    {pop : List PatientProfile} (target : Nat) {k : String}
    (hpop : (popIds pop).Nodup) (hk : k ∈ groupKeys pop) :
    (step3 S seed pop target).countP (fun i => (groupMembers pop k).contains i) =
      min (max 1 (target * (groupMembers pop k).length / pop.length))
        (groupMembers pop k).length := by
  rw [step3, countP_flatMap_single _ _ (groupKeys_nodup pop) hk ?_]
  · have hall : ∀ a ∈ chunk S seed pop target k,
        ((fun i => (groupMembers pop k).contains i) a) = true := by
      intro a ha
      simpa using chunk_subset hS seed pop target k ha
    rw [List.countP_eq_length.2 hall, chunk_length hS seed pop target k]
    rfl
  · intro k' hk' hne
    rw [List.countP_eq_zero]
    intro a ha
    simp only [decide_eq_true_eq, List.elem_eq_mem]
    intro hmem
    exact groupMembers_disjoint hpop hne (chunk_subset hS seed pop target k' ha) hmem

/-- C2 witness: on `quotaPop` with `target_count = 2`, group "A" (share
3/4, size 3) contributes `min (max 1 ⌊2·3/4⌋) 3 = 1` subject. -/
theorem step3_group_draw_count_witness :
    ValidSampler takeSampler ∧ (popIds quotaPop).Nodup ∧ "A" ∈ groupKeys quotaPop ∧
      (step3 takeSampler 42 quotaPop 2).countP
          (fun i => (groupMembers quotaPop "A").contains i) =
        min (max 1 (2 * (groupMembers quotaPop "A").length / quotaPop.length))
          (groupMembers quotaPop "A").length :=
  ⟨takeSampler_valid, by decide, by decide,
    step3_group_draw_count takeSampler_valid 42 2 (by decide) (by decide)⟩

/-- C2 counterexample: on `quotaPop` with `target_count = 2`, group "A"
has proportional quota `2 · (3/4) = 1.5`; the code draws
`max(1, int(1.5)) = 1` subject from it, while the claimed formula
`max(1, round(1.5))` (capped at the group size 3) gives 2. -/
theorem step3_group_draw_count_not_round :
    (step3 takeSampler 42 quotaPop 2).countP
        (fun i => (groupMembers quotaPop "A").contains i) = 1 ∧
      min (max 1 (Int.toNat (round
          ((2 * ((groupMembers quotaPop "A").length : ℚ)) / (quotaPop.length : ℚ)))))
        (groupMembers quotaPop "A").length = 2 := by
  constructor
  · decide
  · have h1 : (groupMembers quotaPop "A").length = 3 := by decide
    have h2 : quotaPop.length = 4 := by decide
    rw [h1, h2]
    norm_num [round_eq]
    all_goals omega

/-- C3 (amended). Every profile group with a positive share receives at
least one representative in the final selection, provided the step-3
selection does not exceed `target_count` (so the step-4 downsample does
not run).  The downsample can remove a group's only representative even
when the eligible population is at least as large as the number of
groups — see the counterexample. -/
theorem stratifiedSelect_group_representation {S : Sampler} (hS : ValidSampler S)
    (seed : Nat) {pop : List PatientProfile} {target : Nat} {k : String}
    (hk : k ∈ groupKeys pop)
    (hfit : (step3 S seed pop target).length ≤ target) :
    ∃ i ∈ stratifiedSelect S seed pop target, i ∈ groupMembers pop k := by
  have hpos : 0 < (chunk S seed pop target k).length := by
    rw [chunk_length hS seed pop target k]
    exact one_le_nToSample hk
  obtain ⟨i, hi⟩ := List.exists_mem_of_length_pos hpos
  have h3 : i ∈ step3 S seed pop target := List.mem_flatMap.2 ⟨k, hk, hi⟩
  refine ⟨i, ?_, chunk_subset hS seed pop target k hi⟩
  show i ∈ backfill S seed pop target target
    (if target < (step3 S seed pop target).length then
      S.samp seed (step3 S seed pop target) target
    else step3 S seed pop target)
  rw [if_neg (Nat.not_lt.2 hfit)]
  exact mem_backfill h3

/-- C3 witness: on `twoPop` with `target_count = 2` the step-3 selection
has size 2 ≤ 2, and the output contains a representative of group "A". -/
theorem stratifiedSelect_group_representation_witness :
    ValidSampler takeSampler ∧ "A" ∈ groupKeys twoPop ∧
      (step3 takeSampler 42 twoPop 2).length ≤ 2 ∧
      ∃ i ∈ stratifiedSelect takeSampler 42 twoPop 2, i ∈ groupMembers twoPop "A" :=
  ⟨takeSampler_valid, by decide, by decide,
    stratifiedSelect_group_representation takeSampler_valid 42 (by decide) (by decide)⟩

/-- C3 counterexample: on `repPop` (four eligible patients, three profile
groups, so the population is not smaller than the number of groups) with
`target_count = 2`, group "C" has positive share (it is nonempty) yet no
subject of the final selection belongs to it: step 3 selects one patient
from each of the three groups and the step-4 downsample drops "C"'s only
representative. -/
theorem stratifiedSelect_group_representation_false :
    (groupKeys repPop).length ≤ repPop.length ∧
      groupMembers repPop "C" ≠ [] ∧
      ∀ i ∈ stratifiedSelect takeSampler 42 repPop 2, i ∉ groupMembers repPop "C" := by
  refine ⟨by decide, by decide, by decide⟩

/-- C8. The number of subjects selected by `stratified_patient_selection`
equals `min(target_count, |eligible population|)`; in particular an empty
population yields an empty selection. -/
theorem stratifiedSelect_size {S : Sampler} (hS : ValidSampler S) (seed : Nat)
    {pop : List PatientProfile} (target : Nat) (hpop : (popIds pop).Nodup) :
    (stratifiedSelect S seed pop target).length = min target pop.length := by
  have hplen : (popIds pop).length = pop.length := List.length_map _ _
  show (backfill S seed pop target target
      (if target < (step3 S seed pop target).length then
        S.samp seed (step3 S seed pop target) target
      else step3 S seed pop target)).length = min target pop.length
  rw [← hplen]
  by_cases hgt : target < (step3 S seed pop target).length
  · rw [if_pos hgt]
    obtain ⟨hl, hsub, hnd⟩ := hS seed (step3 S seed pop target) target hgt.le
    exact backfill_length hS hpop target _ (hnd (step3_nodup hS seed target hpop))
      (fun a ha => step3_subset hS seed pop target (hsub ha)) (by omega) (by omega)
  · rw [if_neg hgt]
    have h3 := step3_nodup hS seed target hpop
    have hle : (step3 S seed pop target).length ≤ (popIds pop).length :=
      (List.subperm_of_subset h3 (step3_subset hS seed pop target)).length_le
    exact backfill_length hS hpop target _ h3
      (step3_subset hS seed pop target) (by omega) (by omega)

/-- C8 witness: `twoPop` (two eligible patients) with `target_count = 5`
returns all two patients, and `quotaPop` (four patients) with
`target_count = 2` returns exactly two. -/
theorem stratifiedSelect_size_witness :
    ValidSampler takeSampler ∧ (popIds twoPop).Nodup ∧
      (stratifiedSelect takeSampler 7 twoPop 5).length = min 5 twoPop.length :=
  ⟨takeSampler_valid, by decide, stratifiedSelect_size takeSampler_valid 7 5 (by decide)⟩

/-- C9. Two runs of `stratified_patient_selection` with the same seed and
the same population in the same order return exactly the same subject
list: the embedded sampler is a pure function of the sampling routine,
the seed, the population and the target, with no other source of
randomness. -/
theorem stratifiedSelect_deterministic (S : Sampler) (seed₁ seed₂ : Nat)
    (pop₁ pop₂ : List PatientProfile) (target : Nat)
    (hseed : seed₁ = seed₂) (hpop : pop₁ = pop₂) :
    stratifiedSelect S seed₁ pop₁ target = stratifiedSelect S seed₂ pop₂ target := by
  rw [hseed, hpop]

/-- C9 witness: two runs on `quotaPop` with seed 42 coincide. -/
theorem stratifiedSelect_deterministic_witness :
    42 = 42 ∧ quotaPop = quotaPop ∧
      stratifiedSelect takeSampler 42 quotaPop 3 =
        stratifiedSelect takeSampler 42 quotaPop 3 :=
  ⟨rfl, rfl, stratifiedSelect_deterministic takeSampler 42 42 quotaPop quotaPop 3 rfl rfl⟩

/-! ## Part 2: DualModelInference (`api/ml/model.py`, `api/ml/inference.py`)

The two neural scorers are the spec's external scorer boundary: their
sigmoid outputs for the image at hand are injected arguments (`binProb`,
`multiProbs`); float probabilities are exact rationals. -/

/-- The `binary_prediction` record built by `DualXRayModel.predict_all`
from `predict_binary`'s `(label, probability, has_finding)` tuple. -/
structure BinaryPrediction where
  label : String
  probability : ℚ
  has_finding : Bool
deriving Repr, DecidableEq

/-- One value of the `predict_multilabel` result dictionary. -/
structure LabelPrediction where
  predicted_label : Bool
  probability : ℚ
deriving Repr, DecidableEq

/-- `DualXRayModel.predict_binary`: `has_finding = probability >= threshold`;
`label = "Finding" if has_finding else "No Finding"`. -/
def predict_binary (p threshold : ℚ) : BinaryPrediction :=
  { label := if threshold ≤ p then "Finding" else "No Finding"
    probability := p
    has_finding := decide (threshold ≤ p) }

/-- `DualXRayModel.predict_multilabel`: per pathology,
`predicted_label = probability > threshold`; `probs` is the scorer's
`(pathology, sigmoid probability)` list in model order. -/
def predict_multilabel (probs : List (String × ℚ)) (threshold : ℚ) :
    List (String × LabelPrediction) :=
  probs.map fun pr => (pr.1, ⟨decide (threshold < pr.2), pr.2⟩)

/-- The unified result dictionary of `DualXRayModel.predict_all`
(also the return value of `ml.inference.predict_image`). -/
structure PredictResult where
  binary_prediction : BinaryPrediction
  multi_label_predictions : List (String × LabelPrediction)
  threshold : ℚ
deriving Repr, DecidableEq

/-- `ml.inference.predict_image` = preprocess (external) + `predict_all`. -/
def predict_image (binProb : ℚ) (multiProbs : List (String × ℚ))
    (threshold : ℚ) : PredictResult :=
  { binary_prediction := predict_binary binProb threshold
    multi_label_predictions := predict_multilabel multiProbs threshold
    threshold := threshold }

/-! ## Part 3: persistence model (`api/models.py` and the services)

Only the columns that participate in the claims are carried; plain data
columns (filenames, byte blobs, free-text descriptions, created_at) are
omitted.  Timestamps are abstract `Nat`s supplied by the caller in place
of `datetime.now(timezone.utc)`. -/

/-- `models.Image` (the spec's Artifact): pending iff `reviewed_at` is
`none`. -/
structure ImageRow where
  id : Nat
  exam_id : Nat
  reviewed_at : Option Nat
deriving Repr, DecidableEq

/-- `models.Pathology` (the spec's Label). -/
structure PathologyRow where
  id : Nat
  code : String
  display_name : String
deriving Repr, DecidableEq

/-- `models.ModelVersion` (the spec's ModelRun). -/
structure ModelVersionRow where
  id : Nat
  name : String
deriving Repr, DecidableEq

/-- `models.User` (reviewer identity). -/
structure UserRow where
  id : Nat
  email : String
deriving Repr, DecidableEq

/-- `models.ImagePredictedLabel` (the spec's Prediction). -/
structure PredRow where
  id : Nat
  image_id : Nat
  model_version_id : Nat
  pathology_id : Nat
  probability : ℚ
  predicted_label : Bool
deriving Repr, DecidableEq

/-- `models.DoctorLabel` (the spec's human review row). -/
structure DoctorLabelRow where
  id : Nat
  image_id : Nat
  model_version_id : Nat
  pathology_id : Nat
  is_present : Bool
  comment : Option String
  labeled_by : Nat
  labeled_at : Nat
deriving Repr, DecidableEq

/-- The database state reachable from one request session.  The `next...`
counters model the primary keys the backend assigns on flush/insert. -/
structure DB where
  images : List ImageRow
  pathologies : List PathologyRow
  modelVersions : List ModelVersionRow
  users : List UserRow
  predictedLabels : List PredRow
  doctorLabels : List DoctorLabelRow
  nextModelVersionId : Nat
  nextUserId : Nat
  nextPredId : Nat
  nextDoctorLabelId : Nat
deriving Repr, DecidableEq

/-- The typed failures of the two services (`HTTPException` 404 / 400). -/
inductive ApiError where
  | notFound (what : String) (id : Nat)
  | unknownPathology (code : String)
deriving Repr, DecidableEq

/-- `session.get(Image, image_id)`. -/
def findImage (db : DB) (imageId : Nat) : Option ImageRow :=
  db.images.find? (fun r => r.id == imageId)

/-- `select(Pathology).where(Pathology.code == code) ... .first()`. -/
def findPathologyByCode (db : DB) (code : String) : Option PathologyRow :=
  db.pathologies.find? (fun r => r.code == code)

/-- Label resolution in `PatientService.update_doctor_labels`: match the
code first, fall back to the display name. -/
def resolvePathology (db : DB) (code : String) : Option PathologyRow :=
  match findPathologyByCode db code with
  | some p => some p
  | none => db.pathologies.find? (fun r => r.display_name == code)

/-- The `(image, model-run, label)` filter of the Prediction upsert. -/
def predMatches (img mv pid : Nat) (r : PredRow) : Bool :=
  r.image_id == img && r.model_version_id == mv && r.pathology_id == pid

/-- The `(image, model-run, label, reviewer)` filter of the review upsert. -/
def dlMatches (img mv pid uid : Nat) (r : DoctorLabelRow) : Bool :=
  r.image_id == img && r.model_version_id == mv && r.pathology_id == pid &&
    r.labeled_by == uid

/-- `_get_or_create_model_version` (both services; PredictionService
commits inside, PatientService only flushes — indistinguishable in this
sequential, single-transaction model).  The race-recovery `except` branch
requires a concurrent writer and is dead in the single-writer model. -/
def getOrCreateModelVersion (db : DB) (name : String) : DB × ModelVersionRow :=
  match db.modelVersions.find? (fun r => r.name == name) with
  | some mv => (db, mv)
  | none =>
    let mv : ModelVersionRow := ⟨db.nextModelVersionId, name⟩
    ({ db with modelVersions := db.modelVersions ++ [mv],
               nextModelVersionId := db.nextModelVersionId + 1 }, mv)

/-- `PatientService._get_or_create_default_doctor`. -/
def getOrCreateDefaultDoctor (db : DB) : DB × UserRow :=
  match db.users.find? (fun r => r.email == "doctor@example.com") with
  | some u => (db, u)
  | none =>
    let u : UserRow := ⟨db.nextUserId, "doctor@example.com"⟩
    ({ db with users := db.users ++ [u], nextUserId := db.nextUserId + 1 }, u)

/-- Mutating the fetched `existing_pred` ORM object updates, in place, the
first stored row the `.first()` query would return. -/
def updateFirstPred (img mv pid : Nat) (prob : ℚ) (lbl : Bool) :
    List PredRow → List PredRow
  | [] => []
  | r :: rs =>
    if predMatches img mv pid r then
      { r with probability := prob, predicted_label := lbl } :: rs
    else r :: updateFirstPred img mv pid prob lbl rs

/-- `PredictionService._save_binary_prediction`: look up the
`ANY_PATHOLOGY` row (silently doing nothing when it is absent — the code
guards with `if any_pathology and ...`), then update the existing
Prediction for `(image, model-run, ANY_PATHOLOGY)` in place or insert a
new one. -/
def save_binary_prediction (db : DB) (imageId mvId : Nat)
    (bp : BinaryPrediction) : DB :=
  match findPathologyByCode db "ANY_PATHOLOGY" with
  | none => db
  | some pa =>
    match db.predictedLabels.find? (predMatches imageId mvId pa.id) with
    | some _ =>
      { db with predictedLabels :=
          (updateFirstPred imageId mvId pa.id bp.probability bp.has_finding
            db.predictedLabels) }
    | none =>
      { db with
          predictedLabels := db.predictedLabels ++
            [⟨db.nextPredId, imageId, mvId, pa.id, bp.probability, bp.has_finding⟩],
          nextPredId := db.nextPredId + 1 }

/-- `PredictionService._save_multi_label_predictions`: per dictionary
entry, resolve the pathology by code (entries with unknown codes are
skipped), then update the existing Prediction for
`(image, model-run, pathology)` in place or insert a new one, collecting
the affected row ids.  The defensive type coercions on the raw dictionary
values collapse in this typed model, and the `model_version.id is None`
`continue` is dead (every stored ModelVersion row has an id). -/
def save_multi_label_predictions (imageId mvId : Nat) :
    DB → List (String × LabelPrediction) → DB × List Nat
  | db, [] => (db, [])
  | db, (code, pred) :: rest =>
    match findPathologyByCode db code with
    | none => save_multi_label_predictions imageId mvId db rest
    | some pa =>
      match db.predictedLabels.find? (predMatches imageId mvId pa.id) with
      | some ex =>
        let db' := { db with predictedLabels :=
          (updateFirstPred imageId mvId pa.id pred.probability pred.predicted_label
            db.predictedLabels) }
        let out := save_multi_label_predictions imageId mvId db' rest
        (out.1, ex.id :: out.2)
      | none =>
        let db' := { db with
          predictedLabels := db.predictedLabels ++
            [⟨db.nextPredId, imageId, mvId, pa.id, pred.probability,
              pred.predicted_label⟩],
          nextPredId := db.nextPredId + 1 }
        let out := save_multi_label_predictions imageId mvId db' rest
        (out.1, db.nextPredId :: out.2)

/-- `PredictionService.predict_and_save` (router `POST /predict/{image_id}`,
`predict_stored_image`): fetch the image (404 when absent), resolve or
lazily create the model version, run inference on the stored bytes (the
scorer outputs are the injected `binProb`/`multiProbs`), persist the
binary then the multi-label predictions, commit.  Note: the function
never touches `Image.reviewed_at`. -/
def predict_and_save (db : DB) (imageId : Nat) (mvName : String)
    (binProb : ℚ) (multiProbs : List (String × ℚ)) (threshold : ℚ) :
    Except ApiError (DB × List Nat) :=
  match findImage db imageId with
  | none => .error (.notFound "Image" imageId)
  | some _ =>
    let dbmv := getOrCreateModelVersion db mvName
    let res := predict_image binProb multiProbs threshold
    let db₂ := save_binary_prediction dbmv.1 imageId dbmv.2.id res.binary_prediction
    let out := save_multi_label_predictions imageId dbmv.2.id db₂
      res.multi_label_predictions
    .ok (out.1, out.2)

/-- The committed database after a call to `POST /predict/{image_id}`: a
handler that raises before `commit` leaves the committed state unchanged
(`dependencies.get_session` closes the session without committing). -/
def run_predict_and_save (db : DB) (imageId : Nat) (mvName : String)
    (binProb : ℚ) (multiProbs : List (String × ℚ)) (threshold : ℚ) : DB :=
  match predict_and_save db imageId mvName binProb multiProbs threshold with
  | .ok out => out.1
  | .error _ => db

/-- `PredictionService.predict_upload`: run inference on uploaded bytes;
the session is never used, no row is read or written. -/
def predict_upload (db : DB) (binProb : ℚ) (multiProbs : List (String × ℚ))
    (threshold : ℚ) : DB × PredictResult :=
  (db, predict_image binProb multiProbs threshold)

/-- Router `POST /predict` (`predict_xray`): validate the upload
(`ml.preprocessing.validate_image`, an external collaborator whose verdict
is the injected `isValidImage`), then delegate to `predict_upload`; an
invalid image is a 400 with no inference result. -/
def predict_xray (db : DB) (isValidImage : Bool) (binProb : ℚ)
    (multiProbs : List (String × ℚ)) (threshold : ℚ) : DB × Option PredictResult :=
  if isValidImage then
    let out := predict_upload db binProb multiProbs threshold
    (out.1, some out.2)
  else (db, none)

/-- Mutating the fetched `existing_label` ORM object updates, in place,
the first stored row the `.first()` query would return
(`is_present`, `comment` and `labeled_at` are refreshed). -/
def updateFirstDL (img mv pid uid : Nat) (isP : Bool) (comment : Option String)
    (now : Nat) : List DoctorLabelRow → List DoctorLabelRow
  | [] => []
  | r :: rs =>
    if dlMatches img mv pid uid r then
      { r with is_present := isP, comment := comment, labeled_at := now } :: rs
    else r :: updateFirstDL img mv pid uid isP comment now rs

/-- One iteration of the `update_doctor_labels` upsert: update the
existing row for `(image, model-run, pathology, reviewer)` in place, or
insert a new one. -/
def upsertDoctorLabel (db : DB) (now imageId mvId pid uid : Nat) (isP : Bool)
    (comment : Option String) : DB :=
  match db.doctorLabels.find? (dlMatches imageId mvId pid uid) with
  | some _ =>
    { db with doctorLabels :=
        (updateFirstDL imageId mvId pid uid isP comment now db.doctorLabels) }
  | none =>
    { db with
        doctorLabels := db.doctorLabels ++
          [⟨db.nextDoctorLabelId, imageId, mvId, pid, isP, comment, uid, now⟩],
        nextDoctorLabelId := db.nextDoctorLabelId + 1 }

/-- The `for pathology_code, is_present in labels.items()` loop of
`update_doctor_labels`: resolve each label (code first, display name as
fallback), abort the whole call with a 400 on the first unresolvable
label, otherwise upsert. -/
def applyDoctorLabels (now imageId mvId uid : Nat) (comment : Option String) :
    DB → List (String × Bool) → Except ApiError DB
  | db, [] => .ok db
  | db, (code, isP) :: rest =>
    match resolvePathology db code with
    | none => .error (.unknownPathology code)
    | some pa =>
      applyDoctorLabels now imageId mvId uid comment
        (upsertDoctorLabel db now imageId mvId pa.id uid isP comment) rest

/-- `image.reviewed_at = datetime.now(timezone.utc); session.add(image)`:
set the review timestamp of the stored image row. -/
def setReviewedAt (db : DB) (imageId : Nat) (t : Option Nat) : DB :=
  { db with images := db.images.map fun r =>
      if r.id == imageId then { r with reviewed_at := t } else r }

/-- `PatientService.update_doctor_labels` (router
`PUT /patients/images/{image_id}/labels`): fetch the image (404 when
absent), resolve or create the default doctor and the default model
version (`DEFAULT_MODEL_VERSION = "mock_v1"`), run the upsert loop over
the submitted `(label, presence)` pairs, then mark the image reviewed and
commit. -/
def update_doctor_labels (db : DB) (now imageId : Nat)
    (labels : List (String × Bool)) (comment : Option String) :
    Except ApiError DB :=
  match findImage db imageId with
  | none => .error (.notFound "Image" imageId)
  | some _ =>
    let dbu := getOrCreateDefaultDoctor db
    let dbm := getOrCreateModelVersion dbu.1 "mock_v1"
    match applyDoctorLabels now imageId dbm.2.id dbu.2.id comment dbm.1 labels with
    | .error e => .error e
    | .ok db₃ => .ok (setReviewedAt db₃ imageId (some now))

/-- The committed database after a call to the label-update endpoint: a
handler that raises before `commit` leaves the committed state unchanged
(`dependencies.get_session` closes the session without committing, so the
flushed-but-uncommitted writes of the aborted transaction are rolled
back). -/
def run_update_doctor_labels (db : DB) (now imageId : Nat)
    (labels : List (String × Bool)) (comment : Option String) : DB :=
  match update_doctor_labels db now imageId labels comment with
  | .ok db' => db'
  | .error _ => db

/-! ### Row-level invariants of the persistence model -/

/-- Number of Prediction rows for one `(image, model-run, label)` triple. -/
def predTripleCount (preds : List PredRow) (img mv pid : Nat) : Nat :=
  preds.countP (predMatches img mv pid)

/-- The spec's §3 uniqueness invariant for Prediction rows. -/
def UniquePredTriples (preds : List PredRow) : Prop :=
  ∀ img mv pid, predTripleCount preds img mv pid ≤ 1

/-- Every Prediction row for the given triple carries the given values. -/
def PredValues (preds : List PredRow) (img mv pid : Nat) (prob : ℚ)
    (lbl : Bool) : Prop :=
  ∀ r ∈ preds, predMatches img mv pid r = true →
    r.probability = prob ∧ r.predicted_label = lbl

/-- Number of review rows for one `(image, model-run, label, reviewer)`
key. -/
def dlKeyCount (dls : List DoctorLabelRow) (img mv pid uid : Nat) : Nat :=
  dls.countP (dlMatches img mv pid uid)

/-- The spec's §3 uniqueness invariant for review rows. -/
def UniqueDLKeys (dls : List DoctorLabelRow) : Prop :=
  ∀ img mv pid uid, dlKeyCount dls img mv pid uid ≤ 1

/-- Every review row for the given key carries the given presence flag and
timestamp. -/
def DLValues (dls : List DoctorLabelRow) (img mv pid uid : Nat) (isP : Bool)
    (now : Nat) : Prop :=
  ∀ r ∈ dls, dlMatches img mv pid uid r = true →
    r.is_present = isP ∧ r.labeled_at = now

/-! ### In-place update primitives -/

theorem countP_updateFirstPred (img mv pid a b c : Nat) (prob : ℚ) (lbl : Bool)
    (l : List PredRow) :
    (updateFirstPred img mv pid prob lbl l).countP (predMatches a b c) =
      l.countP (predMatches a b c) := by
  induction l with
  | nil => rfl
  | cons r rs ih =>
    rw [updateFirstPred]
    by_cases h : predMatches img mv pid r = true
    · rw [if_pos h, List.countP_cons, List.countP_cons]; rfl
    · rw [if_neg h, List.countP_cons, List.countP_cons, ih]

theorem mem_updateFirstPred {img mv pid : Nat} {prob : ℚ} {lbl : Bool} :
    ∀ {l : List PredRow} {s : PredRow},
      s ∈ updateFirstPred img mv pid prob lbl l →
      s ∈ l ∨ (predMatches img mv pid s = true ∧ s.probability = prob ∧
        s.predicted_label = lbl) := by
  intro l
  induction l with
  | nil => intro s hs; rw [updateFirstPred] at hs; cases hs
  | cons r rs ih =>
    intro s hs
    rw [updateFirstPred] at hs
    by_cases h : predMatches img mv pid r = true
    · rw [if_pos h] at hs
      rcases List.mem_cons.1 hs with rfl | hmem
      · exact Or.inr ⟨h, rfl, rfl⟩
      · exact Or.inl (List.mem_cons_of_mem _ hmem)
    · rw [if_neg h] at hs
      rcases List.mem_cons.1 hs with rfl | hmem
      · exact Or.inl (List.mem_cons_self _ _)
      · rcases ih hmem with h1 | h2
        · exact Or.inl (List.mem_cons_of_mem _ h1)
        · exact Or.inr h2

theorem predValues_updateFirstPred {img mv pid : Nat} {prob : ℚ} {lbl : Bool} :
    ∀ {l : List PredRow}, l.countP (predMatches img mv pid) ≤ 1 →
      PredValues (updateFirstPred img mv pid prob lbl l) img mv pid prob lbl := by
  intro l
  induction l with
  | nil => intro _ s hs; rw [updateFirstPred] at hs; cases hs
  | cons r rs ih =>
    intro hc s hs hmatch
    rw [updateFirstPred] at hs
    by_cases h : predMatches img mv pid r = true
    · rw [if_pos h] at hs
      rcases List.mem_cons.1 hs with rfl | hmem
      · exact ⟨rfl, rfl⟩
      · exfalso
        have h1 : 0 < rs.countP (predMatches img mv pid) :=
          List.countP_pos_iff.2 ⟨s, hmem, hmatch⟩
        rw [List.countP_cons, if_pos h] at hc
        omega
    · rw [if_neg h] at hs
      rcases List.mem_cons.1 hs with rfl | hmem
      · exact absurd hmatch h
      · have hc' : rs.countP (predMatches img mv pid) ≤ 1 := by
          rw [List.countP_cons] at hc; omega
        exact ih hc' s hmem hmatch

theorem countP_updateFirstDL (img mv pid uid a b c d : Nat) (isP : Bool)
    (comment : Option String) (now : Nat) (l : List DoctorLabelRow) :
    (updateFirstDL img mv pid uid isP comment now l).countP (dlMatches a b c d) =
      l.countP (dlMatches a b c d) := by
  induction l with
  | nil => rfl
  | cons r rs ih =>
    rw [updateFirstDL]
    by_cases h : dlMatches img mv pid uid r = true
    · rw [if_pos h, List.countP_cons, List.countP_cons]; rfl
    · rw [if_neg h, List.countP_cons, List.countP_cons, ih]

theorem mem_updateFirstDL {img mv pid uid : Nat} {isP : Bool}
    {comment : Option String} {now : Nat} :
    ∀ {l : List DoctorLabelRow} {s : DoctorLabelRow},
      s ∈ updateFirstDL img mv pid uid isP comment now l →
      s ∈ l ∨ (dlMatches img mv pid uid s = true ∧ s.is_present = isP ∧
        s.labeled_at = now) := by
  intro l
  induction l with
  | nil => intro s hs; rw [updateFirstDL] at hs; cases hs
  | cons r rs ih =>
    intro s hs
    rw [updateFirstDL] at hs
    by_cases h : dlMatches img mv pid uid r = true
    · rw [if_pos h] at hs
      rcases List.mem_cons.1 hs with rfl | hmem
      · exact Or.inr ⟨h, rfl, rfl⟩
      · exact Or.inl (List.mem_cons_of_mem _ hmem)
    · rw [if_neg h] at hs
      rcases List.mem_cons.1 hs with rfl | hmem
      · exact Or.inl (List.mem_cons_self _ _)
      · rcases ih hmem with h1 | h2
        · exact Or.inl (List.mem_cons_of_mem _ h1)
        · exact Or.inr h2

theorem dlValues_updateFirstDL {img mv pid uid : Nat} {isP : Bool}
    {comment : Option String} {now : Nat} :
    ∀ {l : List DoctorLabelRow}, l.countP (dlMatches img mv pid uid) ≤ 1 →
      DLValues (updateFirstDL img mv pid uid isP comment now l) img mv pid uid
        isP now := by
  intro l
  induction l with
  | nil => intro _ s hs; rw [updateFirstDL] at hs; cases hs
  | cons r rs ih =>
    intro hc s hs hmatch
    rw [updateFirstDL] at hs
    by_cases h : dlMatches img mv pid uid r = true
    · rw [if_pos h] at hs
      rcases List.mem_cons.1 hs with rfl | hmem
      · exact ⟨rfl, rfl⟩
      · exfalso
        have h1 : 0 < rs.countP (dlMatches img mv pid uid) :=
          List.countP_pos_iff.2 ⟨s, hmem, hmatch⟩
        rw [List.countP_cons, if_pos h] at hc
        omega
    · rw [if_neg h] at hs
      rcases List.mem_cons.1 hs with rfl | hmem
      · exact absurd hmatch h
      · have hc' : rs.countP (dlMatches img mv pid uid) ≤ 1 := by
          rw [List.countP_cons] at hc; omega
        exact ih hc' s hmem hmatch

/-! ### Frame and lookup lemmas for the session operations -/

theorem getOrCreateModelVersion_frame (db : DB) (name : String) :
    (getOrCreateModelVersion db name).1.images = db.images ∧
    (getOrCreateModelVersion db name).1.pathologies = db.pathologies ∧
    (getOrCreateModelVersion db name).1.users = db.users ∧
    (getOrCreateModelVersion db name).1.predictedLabels = db.predictedLabels ∧
    (getOrCreateModelVersion db name).1.doctorLabels = db.doctorLabels ∧
    (getOrCreateModelVersion db name).1.nextPredId = db.nextPredId ∧
    (getOrCreateModelVersion db name).1.nextDoctorLabelId = db.nextDoctorLabelId ∧
    (getOrCreateModelVersion db name).1.nextUserId = db.nextUserId := by
  rcases h : db.modelVersions.find? (fun r => r.name == name) with _ | mv <;>
    simp [getOrCreateModelVersion, h]

theorem getOrCreateModelVersion_find (db : DB) (name : String) :
    (getOrCreateModelVersion db name).1.modelVersions.find?
        (fun r => r.name == name) = some (getOrCreateModelVersion db name).2 := by
  rcases h : db.modelVersions.find? (fun r => r.name == name) with _ | mv
  · simp [getOrCreateModelVersion, h, List.find?_append]
  · simp [getOrCreateModelVersion, h]

theorem getOrCreateModelVersion_found {db : DB} {name : String}
    {mv : ModelVersionRow}
    (h : db.modelVersions.find? (fun r => r.name == name) = some mv) :
    getOrCreateModelVersion db name = (db, mv) := by
  simp [getOrCreateModelVersion, h]

theorem getOrCreateDefaultDoctor_frame (db : DB) :
    (getOrCreateDefaultDoctor db).1.images = db.images ∧
    (getOrCreateDefaultDoctor db).1.pathologies = db.pathologies ∧
    (getOrCreateDefaultDoctor db).1.modelVersions = db.modelVersions ∧
    (getOrCreateDefaultDoctor db).1.predictedLabels = db.predictedLabels ∧
    (getOrCreateDefaultDoctor db).1.doctorLabels = db.doctorLabels ∧
    (getOrCreateDefaultDoctor db).1.nextModelVersionId = db.nextModelVersionId ∧
    (getOrCreateDefaultDoctor db).1.nextPredId = db.nextPredId ∧
    (getOrCreateDefaultDoctor db).1.nextDoctorLabelId = db.nextDoctorLabelId := by
  rcases h : db.users.find? (fun r => r.email == "doctor@example.com") with _ | u <;>
    simp [getOrCreateDefaultDoctor, h]

theorem getOrCreateDefaultDoctor_find (db : DB) :
    (getOrCreateDefaultDoctor db).1.users.find?
        (fun r => r.email == "doctor@example.com") =
      some (getOrCreateDefaultDoctor db).2 := by
  rcases h : db.users.find? (fun r => r.email == "doctor@example.com") with _ | u
  · simp [getOrCreateDefaultDoctor, h, List.find?_append]
  · simp [getOrCreateDefaultDoctor, h]

theorem getOrCreateDefaultDoctor_found {db : DB} {u : UserRow}
    (h : db.users.find? (fun r => r.email == "doctor@example.com") = some u) :
    getOrCreateDefaultDoctor db = (db, u) := by
  simp [getOrCreateDefaultDoctor, h]

theorem save_binary_frame (db : DB) (imageId mvId : Nat) (bp : BinaryPrediction) :
    (save_binary_prediction db imageId mvId bp).images = db.images ∧
    (save_binary_prediction db imageId mvId bp).pathologies = db.pathologies ∧
    (save_binary_prediction db imageId mvId bp).modelVersions = db.modelVersions ∧
    (save_binary_prediction db imageId mvId bp).users = db.users ∧
    (save_binary_prediction db imageId mvId bp).doctorLabels = db.doctorLabels := by
  rcases h : findPathologyByCode db "ANY_PATHOLOGY" with _ | pa
  · simp [save_binary_prediction, h]
  · rcases h2 : db.predictedLabels.find? (predMatches imageId mvId pa.id) with _ | ex <;>
      simp [save_binary_prediction, h, h2]

theorem save_multi_frame (imageId mvId : Nat) :
    ∀ (prs : List (String × LabelPrediction)) (db : DB),
      (save_multi_label_predictions imageId mvId db prs).1.images = db.images ∧
      (save_multi_label_predictions imageId mvId db prs).1.pathologies =
        db.pathologies ∧
      (save_multi_label_predictions imageId mvId db prs).1.modelVersions =
        db.modelVersions ∧
      (save_multi_label_predictions imageId mvId db prs).1.users = db.users ∧
      (save_multi_label_predictions imageId mvId db prs).1.doctorLabels =
        db.doctorLabels := by
  intro prs
  induction prs with
  | nil => intro db; exact ⟨rfl, rfl, rfl, rfl, rfl⟩
  | cons hd rest ih =>
    intro db
    obtain ⟨c, pred⟩ := hd
    rcases h : findPathologyByCode db c with _ | pa
    · simpa only [save_multi_label_predictions, h] using ih db
    · rcases h2 : db.predictedLabels.find? (predMatches imageId mvId pa.id) with _ | ex
      · simp only [save_multi_label_predictions, h, h2]
        exact ih _
      · simp only [save_multi_label_predictions, h, h2]
        exact ih _

theorem upsertDoctorLabel_frame (db : DB) (now imageId mvId pid uid : Nat)
    (isP : Bool) (comment : Option String) :
    (upsertDoctorLabel db now imageId mvId pid uid isP comment).images =
      db.images ∧
    (upsertDoctorLabel db now imageId mvId pid uid isP comment).pathologies =
      db.pathologies ∧
    (upsertDoctorLabel db now imageId mvId pid uid isP comment).modelVersions =
      db.modelVersions ∧
    (upsertDoctorLabel db now imageId mvId pid uid isP comment).users =
      db.users ∧
    (upsertDoctorLabel db now imageId mvId pid uid isP comment).predictedLabels =
      db.predictedLabels := by
  rcases h : db.doctorLabels.find? (dlMatches imageId mvId pid uid) with _ | ex <;>
    simp [upsertDoctorLabel, h]

theorem findImage_congr {db₁ db₂ : DB} (h : db₁.images = db₂.images)
    (imageId : Nat) : findImage db₁ imageId = findImage db₂ imageId := by
  simp [findImage, h]

theorem findPathologyByCode_congr {db₁ db₂ : DB}
    (h : db₁.pathologies = db₂.pathologies) (c : String) :
    findPathologyByCode db₁ c = findPathologyByCode db₂ c := by
  simp [findPathologyByCode, h]

theorem resolvePathology_congr {db₁ db₂ : DB}
    (h : db₁.pathologies = db₂.pathologies) (c : String) :
    resolvePathology db₁ c = resolvePathology db₂ c := by
  simp [resolvePathology, findPathologyByCode, h]

theorem findPathologyByCode_spec {db : DB} {c : String} {pa : PathologyRow}
    (h : findPathologyByCode db c = some pa) :
    pa ∈ db.pathologies ∧ pa.code = c := by
  refine ⟨List.mem_of_find?_eq_some h, ?_⟩
  have := List.find?_some h
  simpa using this

theorem resolvePathology_mem {db : DB} {c : String} {pa : PathologyRow}
    (h : resolvePathology db c = some pa) : pa ∈ db.pathologies := by
  rw [resolvePathology] at h
  rcases h2 : findPathologyByCode db c with _ | pa'
  · rw [h2] at h
    exact List.mem_of_find?_eq_some h
  · rw [h2] at h
    cases h
    exact (findPathologyByCode_spec h2).1

/-! ### Effect of inserting a fresh Prediction row -/

theorem pathologyRow_id_inj {db : DB}
    (hids : (db.pathologies.map (·.id)).Nodup) {pa₁ pa₂ : PathologyRow}
    (h₁ : pa₁ ∈ db.pathologies) (h₂ : pa₂ ∈ db.pathologies)
    (hid : pa₁.id = pa₂.id) : pa₁ = pa₂ :=
  List.inj_on_of_nodup_map hids h₁ h₂ hid

theorem uniquePred_updateFirst {l : List PredRow} {img mv pid : Nat} {prob : ℚ}
    {lbl : Bool} (hU : UniquePredTriples l) :
    UniquePredTriples (updateFirstPred img mv pid prob lbl l) := by
  intro a b c
  rw [UniquePredTriples] at hU
  rw [predTripleCount, countP_updateFirstPred]
  exact hU a b c

theorem uniquePred_insert {l : List PredRow} {img mv pid id₀ : Nat} {prob : ℚ}
    {lbl : Bool} (hU : UniquePredTriples l)
    (hnone : l.find? (predMatches img mv pid) = none) :
    UniquePredTriples (l ++ [(⟨id₀, img, mv, pid, prob, lbl⟩ : PredRow)]) := by
  intro a b c
  rw [predTripleCount, List.countP_append, List.countP_singleton]
  by_cases h : predMatches a b c (⟨id₀, img, mv, pid, prob, lbl⟩ : PredRow) = true
  · have hms : img = a ∧ mv = b ∧ pid = c := by
      simp only [predMatches, Bool.and_eq_true, beq_iff_eq] at h
      exact ⟨h.1.1, h.1.2, h.2⟩
    obtain ⟨rfl, rfl, rfl⟩ := hms
    have h0 : l.countP (predMatches img mv pid) = 0 :=
      List.countP_eq_zero.2 (List.find?_eq_none.1 hnone)
    rw [h0, if_pos h]
  · rw [if_neg h]
    have := hU a b c
    rw [predTripleCount] at this
    omega

theorem predCount_insert_self {l : List PredRow} {img mv pid id₀ : Nat} {prob : ℚ}
    {lbl : Bool} (hnone : l.find? (predMatches img mv pid) = none) :
    (l ++ [(⟨id₀, img, mv, pid, prob, lbl⟩ : PredRow)]).countP (predMatches img mv pid) = 1 := by
  rw [List.countP_append, List.countP_singleton,
    List.countP_eq_zero.2 (List.find?_eq_none.1 hnone)]
  have h : predMatches img mv pid (⟨id₀, img, mv, pid, prob, lbl⟩ : PredRow) = true := by
    simp [predMatches]
  rw [if_pos h]

theorem predValues_insert {l : List PredRow} {img mv pid id₀ : Nat} {prob : ℚ}
    {lbl : Bool} (hnone : l.find? (predMatches img mv pid) = none) :
    PredValues (l ++ [(⟨id₀, img, mv, pid, prob, lbl⟩ : PredRow)]) img mv pid prob lbl := by
  intro s hs hmatch
  rcases List.mem_append.1 hs with h | h
  · exact absurd hmatch (List.find?_eq_none.1 hnone s h)
  · rw [List.mem_singleton.1 h]
    exact ⟨rfl, rfl⟩

theorem predCount_insert_other {l : List PredRow} {img mv pid id₀ a b c : Nat}
    {prob : ℚ} {lbl : Bool} (hne : ¬(img = a ∧ mv = b ∧ pid = c)) :
    (l ++ [(⟨id₀, img, mv, pid, prob, lbl⟩ : PredRow)]).countP (predMatches a b c) =
      l.countP (predMatches a b c) := by
  rw [List.countP_append, List.countP_singleton]
  have h : ¬ predMatches a b c (⟨id₀, img, mv, pid, prob, lbl⟩ : PredRow) = true := by
    simp only [predMatches, Bool.and_eq_true, beq_iff_eq]
    intro hcon
    exact hne ⟨hcon.1.1, hcon.1.2, hcon.2⟩
  rw [if_neg h, Nat.add_zero]

theorem predValues_insert_other {l : List PredRow} {img mv pid id₀ a b c : Nat}
    {prob prob' : ℚ} {lbl lbl' : Bool} (hne : ¬(img = a ∧ mv = b ∧ pid = c))
    (hv : PredValues l a b c prob' lbl') :
    PredValues (l ++ [(⟨id₀, img, mv, pid, prob, lbl⟩ : PredRow)]) a b c prob' lbl' := by
  intro s hs hmatch
  rcases List.mem_append.1 hs with h | h
  · exact hv s h hmatch
  · exfalso
    rw [List.mem_singleton.1 h] at hmatch
    simp only [predMatches, Bool.and_eq_true, beq_iff_eq] at hmatch
    exact hne ⟨hmatch.1.1, hmatch.1.2, hmatch.2⟩

theorem predValues_update_other {l : List PredRow} {img mv pid a b c : Nat}
    {prob prob' : ℚ} {lbl lbl' : Bool} (hne : ¬(img = a ∧ mv = b ∧ pid = c))
    (hv : PredValues l a b c prob' lbl') :
    PredValues (updateFirstPred img mv pid prob lbl l) a b c prob' lbl' := by
  intro s hs hmatch
  rcases mem_updateFirstPred hs with h | ⟨hm, _, _⟩
  · exact hv s h hmatch
  · exfalso
    simp only [predMatches, Bool.and_eq_true, beq_iff_eq] at hm hmatch
    obtain ⟨⟨e1, e2⟩, e3⟩ := hm
    obtain ⟨⟨f1, f2⟩, f3⟩ := hmatch
    exact hne ⟨by omega, by omega, by omega⟩

/-! ### Unfolding equations for `_save_multi_label_predictions` -/

/-- The database after the update branch of one loop iteration. -/
def updatePredDB (db : DB) (imageId mvId pid : Nat) (prob : ℚ) (lbl : Bool) : DB :=
  { db with predictedLabels :=
      (updateFirstPred imageId mvId pid prob lbl db.predictedLabels) }

theorem updatePredDB_preds (db : DB) (imageId mvId pid : Nat) (prob : ℚ)
    (lbl : Bool) :
    (updatePredDB db imageId mvId pid prob lbl).predictedLabels =
      updateFirstPred imageId mvId pid prob lbl db.predictedLabels := rfl

/-- The database after the insert branch of one loop iteration. -/
def insertPredDB (db : DB) (imageId mvId pid : Nat) (prob : ℚ) (lbl : Bool) : DB :=
  { db with
      predictedLabels := db.predictedLabels ++
        [⟨db.nextPredId, imageId, mvId, pid, prob, lbl⟩],
      nextPredId := db.nextPredId + 1 }

theorem save_multi_cons_skip {imageId mvId : Nat} {db : DB} {c : String}
    {pred : LabelPrediction} {rest : List (String × LabelPrediction)}
    (h : findPathologyByCode db c = none) :
    save_multi_label_predictions imageId mvId db ((c, pred) :: rest) =
      save_multi_label_predictions imageId mvId db rest := by
  simp [save_multi_label_predictions, h]

theorem save_multi_cons_update {imageId mvId : Nat} {db : DB} {c : String}
    {pred : LabelPrediction} {rest : List (String × LabelPrediction)}
    {pa : PathologyRow} {ex : PredRow}
    (h : findPathologyByCode db c = some pa)
    (h2 : db.predictedLabels.find? (predMatches imageId mvId pa.id) = some ex) :
    save_multi_label_predictions imageId mvId db ((c, pred) :: rest) =
      ((save_multi_label_predictions imageId mvId
          (updatePredDB db imageId mvId pa.id pred.probability pred.predicted_label)
          rest).1,
        ex.id :: (save_multi_label_predictions imageId mvId
          (updatePredDB db imageId mvId pa.id pred.probability pred.predicted_label)
          rest).2) := by
  simp [save_multi_label_predictions, updatePredDB, h, h2]

theorem save_multi_cons_insert {imageId mvId : Nat} {db : DB} {c : String}
    {pred : LabelPrediction} {rest : List (String × LabelPrediction)}
    {pa : PathologyRow}
    (h : findPathologyByCode db c = some pa)
    (h2 : db.predictedLabels.find? (predMatches imageId mvId pa.id) = none) :
    save_multi_label_predictions imageId mvId db ((c, pred) :: rest) =
      ((save_multi_label_predictions imageId mvId
          (insertPredDB db imageId mvId pa.id pred.probability pred.predicted_label)
          rest).1,
        db.nextPredId :: (save_multi_label_predictions imageId mvId
          (insertPredDB db imageId mvId pa.id pred.probability pred.predicted_label)
          rest).2) := by
  simp [save_multi_label_predictions, insertPredDB, h, h2]

/-! ### Effect of the Prediction persistence operations -/

theorem save_binary_unique {db : DB} {imageId mvId : Nat} {bp : BinaryPrediction}
    (hU : UniquePredTriples db.predictedLabels) :
    UniquePredTriples (save_binary_prediction db imageId mvId bp).predictedLabels := by
  rcases h : findPathologyByCode db "ANY_PATHOLOGY" with _ | pa
  · simpa [save_binary_prediction, h] using hU
  · rcases h2 : db.predictedLabels.find? (predMatches imageId mvId pa.id) with _ | ex
    · simp only [save_binary_prediction, h, h2]
      exact uniquePred_insert hU h2
    · simp only [save_binary_prediction, h, h2]
      exact uniquePred_updateFirst hU

theorem save_binary_self {db : DB} {imageId mvId : Nat} {bp : BinaryPrediction}
    {pa : PathologyRow} (hU : UniquePredTriples db.predictedLabels)
    (h : findPathologyByCode db "ANY_PATHOLOGY" = some pa) :
    predTripleCount (save_binary_prediction db imageId mvId bp).predictedLabels
        imageId mvId pa.id = 1 ∧
      PredValues (save_binary_prediction db imageId mvId bp).predictedLabels
        imageId mvId pa.id bp.probability bp.has_finding := by
  rcases h2 : db.predictedLabels.find? (predMatches imageId mvId pa.id) with _ | ex
  · simp only [save_binary_prediction, h, h2]
    exact ⟨predCount_insert_self h2, predValues_insert h2⟩
  · simp only [save_binary_prediction, h, h2]
    constructor
    · rw [predTripleCount, countP_updateFirstPred]
      have h1 : 0 < db.predictedLabels.countP (predMatches imageId mvId pa.id) :=
        List.countP_pos_iff.2 ⟨ex, List.mem_of_find?_eq_some h2, List.find?_some h2⟩
      have h3 := hU imageId mvId pa.id
      rw [predTripleCount] at h3
      omega
    · exact predValues_updateFirstPred (hU imageId mvId pa.id)

theorem save_multi_unique (imageId mvId : Nat) :
    ∀ (prs : List (String × LabelPrediction)) (db : DB),
      UniquePredTriples db.predictedLabels →
      UniquePredTriples
        (save_multi_label_predictions imageId mvId db prs).1.predictedLabels := by
  intro prs
  induction prs with
  | nil => intro db hU; exact hU
  | cons hd rest ih =>
    intro db hU
    obtain ⟨c, pred⟩ := hd
    rcases h : findPathologyByCode db c with _ | pa
    · rw [save_multi_cons_skip h]
      exact ih db hU
    · rcases h2 : db.predictedLabels.find? (predMatches imageId mvId pa.id) with _ | ex
      · rw [save_multi_cons_insert h h2]
        exact ih (insertPredDB db imageId mvId pa.id pred.probability
          pred.predicted_label) (uniquePred_insert hU h2)
      · rw [save_multi_cons_update h h2]
        exact ih (updatePredDB db imageId mvId pa.id pred.probability
          pred.predicted_label) (uniquePred_updateFirst hU)

theorem save_multi_other (imageId mvId pid : Nat) :
    ∀ (prs : List (String × LabelPrediction)) (db : DB),
      (∀ p ∈ prs, ∀ pa, findPathologyByCode db p.1 = some pa → pa.id ≠ pid) →
      predTripleCount
          (save_multi_label_predictions imageId mvId db prs).1.predictedLabels
          imageId mvId pid =
        predTripleCount db.predictedLabels imageId mvId pid ∧
      ∀ prob lbl, PredValues db.predictedLabels imageId mvId pid prob lbl →
        PredValues
          (save_multi_label_predictions imageId mvId db prs).1.predictedLabels
          imageId mvId pid prob lbl := by
  intro prs
  induction prs with
  | nil => intro db _; exact ⟨rfl, fun _ _ hv => hv⟩
  | cons hd rest ih =>
    intro db hother
    obtain ⟨c, pred⟩ := hd
    rcases h : findPathologyByCode db c with _ | pa
    · rw [save_multi_cons_skip h]
      exact ih db fun p hp => hother p (List.mem_cons_of_mem _ hp)
    · have hpa : pa.id ≠ pid := hother (c, pred) (List.mem_cons_self _ _) pa h
      have hne : ¬(imageId = imageId ∧ mvId = mvId ∧ pa.id = pid) :=
        fun hcon => hpa hcon.2.2
      rcases h2 : db.predictedLabels.find? (predMatches imageId mvId pa.id) with _ | ex
      · rw [save_multi_cons_insert h h2]
        obtain ⟨hcnt, hval⟩ := ih (insertPredDB db imageId mvId pa.id
            pred.probability pred.predicted_label)
          (fun p hp pa' hf => hother p (List.mem_cons_of_mem _ hp) pa' hf)
        constructor
        · rw [hcnt]
          exact predCount_insert_other hne
        · intro prob lbl hv
          exact hval prob lbl (predValues_insert_other hne hv)
      · rw [save_multi_cons_update h h2]
        obtain ⟨hcnt, hval⟩ := ih (updatePredDB db imageId mvId pa.id
            pred.probability pred.predicted_label)
          (fun p hp pa' hf => hother p (List.mem_cons_of_mem _ hp) pa' hf)
        constructor
        · rw [hcnt]
          exact countP_updateFirstPred imageId mvId pa.id imageId mvId pid
            pred.probability pred.predicted_label db.predictedLabels
        · intro prob lbl hv
          exact hval prob lbl (predValues_update_other hne hv)

theorem save_multi_target (imageId mvId : Nat) :
    ∀ (prs : List (String × LabelPrediction)) (db : DB) (c : String)
      (pr : LabelPrediction) (pa : PathologyRow),
      UniquePredTriples db.predictedLabels →
      (db.pathologies.map (·.id)).Nodup →
      (prs.map Prod.fst).Nodup →
      (c, pr) ∈ prs →
      findPathologyByCode db c = some pa →
      predTripleCount
          (save_multi_label_predictions imageId mvId db prs).1.predictedLabels
          imageId mvId pa.id = 1 ∧
        PredValues
          (save_multi_label_predictions imageId mvId db prs).1.predictedLabels
          imageId mvId pa.id pr.probability pr.predicted_label := by
  intro prs
  induction prs with
  | nil => intro db c pr pa _ _ _ hmem _; cases hmem
  | cons hd rest ih =>
    intro db c pr pa hU hids hkeys hmem hfind
    obtain ⟨c₀, p₀⟩ := hd
    rcases List.mem_cons.1 hmem with heq | hmem'
    · -- the target pair is the head of the loop
      obtain ⟨rfl, rfl⟩ : c = c₀ ∧ pr = p₀ := Prod.ext_iff.1 heq
      have hother : ∀ p ∈ rest, ∀ pa',
          findPathologyByCode db p.1 = some pa' → pa'.id ≠ pa.id := by
        intro p hp pa' hf hid
        have hpc : p.1 ≠ c := by
          have hnotin : c ∉ rest.map Prod.fst := by
            have := hkeys
            rw [List.map_cons, List.nodup_cons] at this
            exact this.1
          intro hpc1
          exact hnotin (hpc1 ▸ List.mem_map_of_mem _ hp)
        have h1 := findPathologyByCode_spec hf
        have h2s := findPathologyByCode_spec hfind
        have heqpa : pa' = pa := pathologyRow_id_inj hids h1.1 h2s.1 hid
        exact hpc (by rw [← h1.2, heqpa, h2s.2])
      rcases h2 : db.predictedLabels.find? (predMatches imageId mvId pa.id) with _ | ex
      · rw [save_multi_cons_insert hfind h2]
        have hother' : ∀ p ∈ rest, ∀ pa', findPathologyByCode
            (insertPredDB db imageId mvId pa.id pr.probability pr.predicted_label)
              p.1 = some pa' → pa'.id ≠ pa.id :=
          fun p hp pa' hf => hother p hp pa' hf
        obtain ⟨hcnt, hval⟩ := save_multi_other imageId mvId pa.id rest
          (insertPredDB db imageId mvId pa.id pr.probability pr.predicted_label)
          hother'
        constructor
        · rw [hcnt]
          exact predCount_insert_self h2
        · exact hval _ _ (predValues_insert h2)
      · rw [save_multi_cons_update hfind h2]
        have hother' : ∀ p ∈ rest, ∀ pa', findPathologyByCode
            (updatePredDB db imageId mvId pa.id pr.probability pr.predicted_label)
              p.1 = some pa' → pa'.id ≠ pa.id :=
          fun p hp pa' hf => hother p hp pa' hf
        obtain ⟨hcnt, hval⟩ := save_multi_other imageId mvId pa.id rest
          (updatePredDB db imageId mvId pa.id pr.probability pr.predicted_label)
          hother'
        constructor
        · rw [hcnt]
          have h1 : 0 < db.predictedLabels.countP (predMatches imageId mvId pa.id) :=
            List.countP_pos_iff.2
              ⟨ex, List.mem_of_find?_eq_some h2, List.find?_some h2⟩
          have h3 := hU imageId mvId pa.id
          rw [predTripleCount] at h3
          have h4 := countP_updateFirstPred imageId mvId pa.id imageId mvId pa.id
            pr.probability pr.predicted_label db.predictedLabels
          rw [predTripleCount, updatePredDB_preds, h4]
          omega
        · exact hval _ _ (predValues_updateFirstPred (hU imageId mvId pa.id))
    · -- the target pair lies further down the loop
      have hkeys' : (rest.map Prod.fst).Nodup := by
        rw [List.map_cons, List.nodup_cons] at hkeys
        exact hkeys.2
      rcases h : findPathologyByCode db c₀ with _ | pa₀
      · rw [save_multi_cons_skip h]
        exact ih db c pr pa hU hids hkeys' hmem' hfind
      · rcases h2 : db.predictedLabels.find? (predMatches imageId mvId pa₀.id) with _ | ex
        · rw [save_multi_cons_insert h h2]
          exact ih (insertPredDB db imageId mvId pa₀.id p₀.probability
            p₀.predicted_label) c pr pa (uniquePred_insert hU h2) hids hkeys'
            hmem' hfind
        · rw [save_multi_cons_update h h2]
          exact ih (updatePredDB db imageId mvId pa₀.id p₀.probability
            p₀.predicted_label) c pr pa (uniquePred_updateFirst hU) hids hkeys'
            hmem' hfind

/-! ### `predict_and_save` as a whole -/

theorem predict_and_save_eq {db : DB} {imageId : Nat} {mvName : String}
    {binProb : ℚ} {multiProbs : List (String × ℚ)} {threshold : ℚ}
    {img : ImageRow} (h : findImage db imageId = some img) :
    predict_and_save db imageId mvName binProb multiProbs threshold =
      .ok ((save_multi_label_predictions imageId
              (getOrCreateModelVersion db mvName).2.id
              (save_binary_prediction (getOrCreateModelVersion db mvName).1
                imageId (getOrCreateModelVersion db mvName).2.id
                (predict_binary binProb threshold))
              (predict_multilabel multiProbs threshold)).1,
            (save_multi_label_predictions imageId
              (getOrCreateModelVersion db mvName).2.id
              (save_binary_prediction (getOrCreateModelVersion db mvName).1
                imageId (getOrCreateModelVersion db mvName).2.id
                (predict_binary binProb threshold))
              (predict_multilabel multiProbs threshold)).2) := by
  simp [predict_and_save, h, predict_image]

theorem predict_and_save_notFound {db : DB} {imageId : Nat} {mvName : String}
    {binProb : ℚ} {multiProbs : List (String × ℚ)} {threshold : ℚ}
    (h : findImage db imageId = none) :
    predict_and_save db imageId mvName binProb multiProbs threshold =
      .error (.notFound "Image" imageId) := by
  simp [predict_and_save, h]

theorem run_predict_and_save_images (db : DB) (imageId : Nat) (mvName : String)
    (binProb : ℚ) (multiProbs : List (String × ℚ)) (threshold : ℚ) :
    (run_predict_and_save db imageId mvName binProb multiProbs threshold).images =
      db.images := by
  rcases hfi : findImage db imageId with _ | img
  · simp [run_predict_and_save, predict_and_save_notFound hfi]
  · simp only [run_predict_and_save, predict_and_save_eq hfi]
    rw [(save_multi_frame _ _ _ _).1, (save_binary_frame _ _ _ _).1,
      (getOrCreateModelVersion_frame db mvName).1]

/-! ### Claims C4 and C10 -/

/-- C4. The binary decision is `probability >= threshold` (so a
probability exactly at the threshold counts as a Finding, with label
"Finding"), while every multi-label decision is `probability > threshold`
(so a probability exactly at the threshold yields `false`).  The last two
conjuncts are the spec's `threshold = 0.5`, `probability = 0.5`
scenario. -/
theorem predict_threshold_asymmetry :
    (∀ p t : ℚ, ((predict_binary p t).has_finding = true ↔ t ≤ p) ∧
      ((predict_binary p t).label = "Finding" ↔ t ≤ p)) ∧
    (∀ (probs : List (String × ℚ)) (t : ℚ) (e : String × LabelPrediction),
      e ∈ predict_multilabel probs t →
        (e.2.predicted_label = true ↔ t < e.2.probability)) ∧
    (predict_binary (1 / 2) (1 / 2)).has_finding = true ∧
    (predict_binary (1 / 2) (1 / 2)).label = "Finding" ∧
    (∀ e ∈ predict_multilabel [("Cardiomegaly", (1 / 2 : ℚ))] (1 / 2),
      e.2.predicted_label = false) := by
  refine ⟨?_, ?_, ?_, ?_, ?_⟩
  · intro p t
    constructor
    · simp [predict_binary]
    · by_cases h : t ≤ p
      · simp [predict_binary, h]
      · simp [predict_binary, h]
  · intro probs t e he
    simp only [predict_multilabel, List.mem_map] at he
    obtain ⟨pr, _, rfl⟩ := he
    simp
  · simp [predict_binary]
  · simp [predict_binary]
  · intro e he
    simp only [predict_multilabel, List.map_cons, List.map_nil,
      List.mem_singleton] at he
    rw [he]
    simp

/-- C4 witness: for the membership hypothesis of the multi-label
conjunct, the single entry of the 0.5/0.5 scenario. -/
theorem predict_threshold_asymmetry_witness :
    (("Cardiomegaly", (⟨decide ((1 / 2 : ℚ) < (1 / 2 : ℚ)), (1 / 2 : ℚ)⟩ :
        LabelPrediction)) ∈
        predict_multilabel [("Cardiomegaly", (1 / 2 : ℚ))] (1 / 2)) ∧
      ((("Cardiomegaly", (⟨decide ((1 / 2 : ℚ) < (1 / 2 : ℚ)), (1 / 2 : ℚ)⟩ :
        LabelPrediction)) : String × LabelPrediction).2.predicted_label = true ↔
        (1 / 2 : ℚ) < (1 / 2 : ℚ)) :=
  ⟨List.mem_singleton.2 rfl,
    predict_threshold_asymmetry.2.1 [("Cardiomegaly", (1 / 2 : ℚ))] (1 / 2) _
      (List.mem_singleton.2 rfl)⟩

/-- C10. The upload-only prediction path (`PredictionService.predict_upload`,
served by `POST /predict` / `predict_xray`) returns the inference result
and leaves the entire database state — every table and counter — exactly
as it was, whether or not the upload validates. -/
theorem predict_upload_frame (db : DB) (isValidImage : Bool) (binProb : ℚ)
    (multiProbs : List (String × ℚ)) (threshold : ℚ) :
    (predict_upload db binProb multiProbs threshold).1 = db ∧
      (predict_upload db binProb multiProbs threshold).2 =
        predict_image binProb multiProbs threshold ∧
      (predict_xray db isValidImage binProb multiProbs threshold).1 = db := by
  refine ⟨rfl, rfl, ?_⟩
  cases isValidImage <;> rfl

/-! ### Claim C1 -/

/-- The artifact/prediction fixture used to run the services on closed
inputs: one already-reviewed image, the `ANY_PATHOLOGY` row, one pathology
and the default model version. -/
def c1DB : DB :=
  { images := [⟨1, 1, some 5⟩]
    pathologies := [⟨1, "ANY_PATHOLOGY", "Any Pathology"⟩,
      ⟨2, "Cardiomegaly", "Cardiomegaly"⟩]
    modelVersions := [⟨1, "mock_v1"⟩]
    users := []
    predictedLabels := []
    doctorLabels := []
    nextModelVersionId := 2
    nextUserId := 1
    nextPredId := 1
    nextDoctorLabelId := 1 }

/-- C1 (amended). `PredictionService.predict_and_save` never touches
`Image.reviewed_at`: a successful call leaves the `images` table — and in
particular the scored artifact's `reviewed_at` — exactly as it was.  A
re-score therefore does **not** return a reviewed artifact to the pending
state. -/
theorem predict_and_save_keeps_reviewed_at {db db' : DB} {imageId : Nat}
    {mvName : String} {binProb : ℚ} {multiProbs : List (String × ℚ)}
    {threshold : ℚ} {ids : List Nat}
    (h : predict_and_save db imageId mvName binProb multiProbs threshold =
      .ok (db', ids)) :
    db'.images = db.images ∧
      (findImage db' imageId).map (·.reviewed_at) =
        (findImage db imageId).map (·.reviewed_at) := by
  have himg : db'.images = db.images := by
    rcases hfi : findImage db imageId with _ | img
    · rw [predict_and_save_notFound hfi] at h
      cases h
    · rw [predict_and_save_eq hfi] at h
      rw [Except.ok.injEq, Prod.mk.injEq] at h
      rw [← h.1]
      rw [(save_multi_frame _ _ _ _).1, (save_binary_frame _ _ _ _).1,
        (getOrCreateModelVersion_frame db mvName).1]
  exact ⟨himg, by rw [findImage_congr himg]⟩

/-- C1 witness: on `c1DB`, where image 1 was reviewed at time 5, a
successful re-score leaves the `images` table unchanged. -/
theorem predict_and_save_keeps_reviewed_at_witness :
    (run_predict_and_save c1DB 1 "mock_v1" 1 [("Cardiomegaly", 1)] 0).images =
      c1DB.images :=
  (@predict_and_save_keeps_reviewed_at c1DB
    (run_predict_and_save c1DB 1 "mock_v1" 1 [("Cardiomegaly", 1)] 0)
    1 "mock_v1" 1 [("Cardiomegaly", 1)] 0 _
    (@predict_and_save_eq c1DB 1 "mock_v1" 1 [("Cardiomegaly", 1)] 0
      ⟨1, 1, some 5⟩ rfl)).1

/-- C1 counterexample: on `c1DB`, image 1 has `reviewed_at = 5 ≠ null`;
`predict_and_save` succeeds, yet afterwards `reviewed_at` is still `5`,
not `null` — the artifact is **not** returned to the pending state as the
claim requires. -/
theorem predict_and_save_reviewed_at_not_reset :
    (findImage c1DB 1).map (·.reviewed_at) = some (some 5) ∧
      predict_and_save c1DB 1 "mock_v1" 1 [("Cardiomegaly", 1)] 0 =
        .ok (run_predict_and_save c1DB 1 "mock_v1" 1 [("Cardiomegaly", 1)] 0,
          (save_multi_label_predictions 1
            (getOrCreateModelVersion c1DB "mock_v1").2.id
            (save_binary_prediction (getOrCreateModelVersion c1DB "mock_v1").1 1
              (getOrCreateModelVersion c1DB "mock_v1").2.id
              (predict_binary 1 0))
            (predict_multilabel [("Cardiomegaly", 1)] 0)).2) ∧
      (findImage (run_predict_and_save c1DB 1 "mock_v1" 1 [("Cardiomegaly", 1)] 0)
          1).map (·.reviewed_at) = some (some 5) := by
  refine ⟨rfl, @predict_and_save_eq c1DB 1 "mock_v1" 1 [("Cardiomegaly", 1)] 0
    ⟨1, 1, some 5⟩ rfl, ?_⟩
  rw [findImage_congr (run_predict_and_save_images c1DB 1 "mock_v1" 1
    [("Cardiomegaly", 1)] 0)]
  rfl

/-! ### Claim C5 -/

theorem predict_multilabel_keys (probs : List (String × ℚ)) (t : ℚ) :
    (predict_multilabel probs t).map Prod.fst = probs.map Prod.fst := by
  simp [predict_multilabel]

/-- C5. Running the prediction persistence twice for the same artifact and
model-run leaves exactly one Prediction row per resolvable label, holding
the probability and thresholded decision of the second run: once for every
multi-label entry of the second run (first conjunct), and once for the
binary `ANY_PATHOLOGY` row (second conjunct, provided the multi-label
scorer does not itself emit `ANY_PATHOLOGY`).  Hypotheses: the stored
Prediction rows initially satisfy the spec's at-most-one-row-per-triple
invariant, pathology ids are unique (the schema's primary key), and the
second run's scorer emits each label code once (Python dict keys). -/
theorem predict_and_save_idempotent
    {db₀ db₁ db₂ : DB} {imageId : Nat} {mvName : String}
    {b₁ b₂ : ℚ} {m₁ m₂ : List (String × ℚ)} {t₁ t₂ : ℚ}
    {ids₁ ids₂ : List Nat}
    (hU : UniquePredTriples db₀.predictedLabels)
    (hids : (db₀.pathologies.map (·.id)).Nodup)
    (hkeys : (m₂.map Prod.fst).Nodup)
    (hany : "ANY_PATHOLOGY" ∉ m₂.map Prod.fst)
    (run1 : predict_and_save db₀ imageId mvName b₁ m₁ t₁ = .ok (db₁, ids₁))
    (run2 : predict_and_save db₁ imageId mvName b₂ m₂ t₂ = .ok (db₂, ids₂)) :
    (∀ c q pa, (c, q) ∈ m₂ → findPathologyByCode db₀ c = some pa →
      predTripleCount db₂.predictedLabels imageId
          (getOrCreateModelVersion db₀ mvName).2.id pa.id = 1 ∧
        PredValues db₂.predictedLabels imageId
          (getOrCreateModelVersion db₀ mvName).2.id pa.id q (decide (t₂ < q))) ∧
    (∀ pa, findPathologyByCode db₀ "ANY_PATHOLOGY" = some pa →
      predTripleCount db₂.predictedLabels imageId
          (getOrCreateModelVersion db₀ mvName).2.id pa.id = 1 ∧
        PredValues db₂.predictedLabels imageId
          (getOrCreateModelVersion db₀ mvName).2.id pa.id b₂ (decide (t₂ ≤ b₂))) := by
  obtain ⟨img, hfi⟩ : ∃ img, findImage db₀ imageId = some img := by
    rcases hfi : findImage db₀ imageId with _ | img
    · rw [predict_and_save_notFound hfi] at run1
      cases run1
    · exact ⟨img, rfl⟩
  rw [predict_and_save_eq hfi, Except.ok.injEq, Prod.mk.injEq] at run1
  obtain ⟨hdb₁, -⟩ := run1
  have hpath₁ : db₁.pathologies = db₀.pathologies := by
    rw [← hdb₁, (save_multi_frame _ _ _ _).2.1, (save_binary_frame _ _ _ _).2.1,
      (getOrCreateModelVersion_frame db₀ mvName).2.1]
  have himg₁ : db₁.images = db₀.images := by
    rw [← hdb₁, (save_multi_frame _ _ _ _).1, (save_binary_frame _ _ _ _).1,
      (getOrCreateModelVersion_frame db₀ mvName).1]
  have hmv₁ : db₁.modelVersions =
      (getOrCreateModelVersion db₀ mvName).1.modelVersions := by
    rw [← hdb₁, (save_multi_frame _ _ _ _).2.2.1, (save_binary_frame _ _ _ _).2.2.1]
  have hU₁ : UniquePredTriples db₁.predictedLabels := by
    rw [← hdb₁]
    apply save_multi_unique
    apply save_binary_unique
    have hfr := (getOrCreateModelVersion_frame db₀ mvName).2.2.2.1
    rw [hfr]
    exact hU
  have hfi₂ : findImage db₁ imageId = some img := by
    rw [findImage_congr himg₁]
    exact hfi
  rw [predict_and_save_eq hfi₂, Except.ok.injEq, Prod.mk.injEq] at run2
  obtain ⟨hdb₂, -⟩ := run2
  have hfound : getOrCreateModelVersion db₁ mvName =
      (db₁, (getOrCreateModelVersion db₀ mvName).2) := by
    apply getOrCreateModelVersion_found
    rw [hmv₁]
    exact getOrCreateModelVersion_find db₀ mvName
  rw [hfound] at hdb₂
  set mvI := (getOrCreateModelVersion db₀ mvName).2.id with hmvI
  set dbB := save_binary_prediction db₁ imageId mvI (predict_binary b₂ t₂)
    with hdbB
  have hUB : UniquePredTriples dbB.predictedLabels := save_binary_unique hU₁
  have hpathB : dbB.pathologies = db₀.pathologies := by
    rw [hdbB, (save_binary_frame _ _ _ _).2.1, hpath₁]
  have hidsB : (dbB.pathologies.map (·.id)).Nodup := by
    rw [hpathB]
    exact hids
  constructor
  · intro c q pa hcq hfind₀
    have hfindB : findPathologyByCode dbB c = some pa := by
      rw [findPathologyByCode_congr hpathB]
      exact hfind₀
    have hmem : (c, (⟨decide (t₂ < q), q⟩ : LabelPrediction)) ∈
        predict_multilabel m₂ t₂ := by
      simp only [predict_multilabel, List.mem_map]
      exact ⟨(c, q), hcq, rfl⟩
    have hkeysB : ((predict_multilabel m₂ t₂).map Prod.fst).Nodup := by
      rw [predict_multilabel_keys]
      exact hkeys
    have htgt := save_multi_target imageId mvI (predict_multilabel m₂ t₂) dbB c
      ⟨decide (t₂ < q), q⟩ pa hUB hidsB hkeysB hmem hfindB
    rw [hdb₂] at htgt
    exact htgt
  · intro pa hfindAny
    have hfindAny₁ : findPathologyByCode db₁ "ANY_PATHOLOGY" = some pa := by
      rw [findPathologyByCode_congr hpath₁]
      exact hfindAny
    have hself := @save_binary_self db₁ imageId mvI (predict_binary b₂ t₂) pa
      hU₁ hfindAny₁
    have hother : ∀ p ∈ predict_multilabel m₂ t₂, ∀ pa',
        findPathologyByCode dbB p.1 = some pa' → pa'.id ≠ pa.id := by
      intro p hp pa' hf hid
      have hc : p.1 ∈ m₂.map Prod.fst := by
        rw [← predict_multilabel_keys m₂ t₂]
        exact List.mem_map_of_mem _ hp
      have h1 := findPathologyByCode_spec hf
      have h2 := findPathologyByCode_spec hfindAny
      have h1' : pa' ∈ db₀.pathologies := by
        rw [← hpathB]
        exact h1.1
      have heqpa : pa' = pa := pathologyRow_id_inj hids h1' h2.1 hid
      have hpc : p.1 = "ANY_PATHOLOGY" := by rw [← h1.2, heqpa, h2.2]
      exact hany (hpc ▸ hc)
    obtain ⟨hcnt, hval⟩ := save_multi_other imageId mvI pa.id
      (predict_multilabel m₂ t₂) dbB hother
    constructor
    · rw [← hdb₂]
      exact hcnt.trans hself.1
    · rw [← hdb₂]
      exact hval _ _ hself.2

/-- C5 witness: on `c1DB`, scoring image 1 twice (probability 1 then 0 for
"Cardiomegaly") leaves exactly one Prediction row for the
(image 1, mock_v1, Cardiomegaly) triple, holding the second run's
values. -/
theorem predict_and_save_idempotent_witness :
    predTripleCount
        (run_predict_and_save
          (run_predict_and_save c1DB 1 "mock_v1" 1 [("Cardiomegaly", 1)] 0)
          1 "mock_v1" 0 [("Cardiomegaly", 0)] 0).predictedLabels
        1 (getOrCreateModelVersion c1DB "mock_v1").2.id 2 = 1 ∧
      PredValues
        (run_predict_and_save
          (run_predict_and_save c1DB 1 "mock_v1" 1 [("Cardiomegaly", 1)] 0)
          1 "mock_v1" 0 [("Cardiomegaly", 0)] 0).predictedLabels
        1 (getOrCreateModelVersion c1DB "mock_v1").2.id 2 0
        (decide ((0 : ℚ) < 0)) := by
  have h := @predict_and_save_idempotent c1DB
    (run_predict_and_save c1DB 1 "mock_v1" 1 [("Cardiomegaly", 1)] 0)
    (run_predict_and_save
      (run_predict_and_save c1DB 1 "mock_v1" 1 [("Cardiomegaly", 1)] 0)
      1 "mock_v1" 0 [("Cardiomegaly", 0)] 0)
    1 "mock_v1" 1 0 [("Cardiomegaly", 1)] [("Cardiomegaly", 0)] 0 0 _ _
    (fun _ _ _ => Nat.zero_le 1) (by decide) (by decide) (by decide)
    (@predict_and_save_eq c1DB 1 "mock_v1" 1 [("Cardiomegaly", 1)] 0
      ⟨1, 1, some 5⟩ rfl)
    (@predict_and_save_eq
      (run_predict_and_save c1DB 1 "mock_v1" 1 [("Cardiomegaly", 1)] 0)
      1 "mock_v1" 0 [("Cardiomegaly", 0)] 0 ⟨1, 1, some 5⟩
      ((findImage_congr (run_predict_and_save_images c1DB 1 "mock_v1" 1
        [("Cardiomegaly", 1)] 0) 1).trans rfl))
  exact h.1 "Cardiomegaly" 0 ⟨2, "Cardiomegaly", "Cardiomegaly"⟩
    (List.mem_singleton.2 rfl) rfl

/-! ### Effect of the review upsert primitives -/

theorem uniqueDL_updateFirst {l : List DoctorLabelRow} {img mv pid uid now : Nat}
    {isP : Bool} {comment : Option String} (hU : UniqueDLKeys l) :
    UniqueDLKeys (updateFirstDL img mv pid uid isP comment now l) := by
  intro a b c d
  rw [dlKeyCount, countP_updateFirstDL]
  exact hU a b c d

theorem uniqueDL_insert {l : List DoctorLabelRow} {img mv pid uid id₀ : Nat}
    {isP : Bool} {comment : Option String} {now : Nat} (hU : UniqueDLKeys l)
    (hnone : l.find? (dlMatches img mv pid uid) = none) :
    UniqueDLKeys
      (l ++ [(⟨id₀, img, mv, pid, isP, comment, uid, now⟩ : DoctorLabelRow)]) := by
  intro a b c d
  rw [dlKeyCount, List.countP_append, List.countP_singleton]
  by_cases h : dlMatches a b c d
      (⟨id₀, img, mv, pid, isP, comment, uid, now⟩ : DoctorLabelRow) = true
  · have hms : img = a ∧ mv = b ∧ pid = c ∧ uid = d := by
      simp only [dlMatches, Bool.and_eq_true, beq_iff_eq] at h
      exact ⟨h.1.1.1, h.1.1.2, h.1.2, h.2⟩
    obtain ⟨rfl, rfl, rfl, rfl⟩ := hms
    rw [List.countP_eq_zero.2 (List.find?_eq_none.1 hnone), if_pos h]
  · rw [if_neg h]
    have := hU a b c d
    rw [dlKeyCount] at this
    omega

theorem dlCount_insert_self {l : List DoctorLabelRow} {img mv pid uid id₀ : Nat}
    {isP : Bool} {comment : Option String} {now : Nat}
    (hnone : l.find? (dlMatches img mv pid uid) = none) :
    (l ++ [(⟨id₀, img, mv, pid, isP, comment, uid, now⟩ :
        DoctorLabelRow)]).countP (dlMatches img mv pid uid) = 1 := by
  rw [List.countP_append, List.countP_singleton,
    List.countP_eq_zero.2 (List.find?_eq_none.1 hnone)]
  have h : dlMatches img mv pid uid
      (⟨id₀, img, mv, pid, isP, comment, uid, now⟩ : DoctorLabelRow) = true := by
    simp [dlMatches]
  rw [if_pos h]

theorem dlValues_insert {l : List DoctorLabelRow} {img mv pid uid id₀ : Nat}
    {isP : Bool} {comment : Option String} {now : Nat}
    (hnone : l.find? (dlMatches img mv pid uid) = none) :
    DLValues (l ++ [(⟨id₀, img, mv, pid, isP, comment, uid, now⟩ :
      DoctorLabelRow)]) img mv pid uid isP now := by
  intro s hs hmatch
  rcases List.mem_append.1 hs with h | h
  · exact absurd hmatch (List.find?_eq_none.1 hnone s h)
  · rw [List.mem_singleton.1 h]
    exact ⟨rfl, rfl⟩

theorem dlCount_insert_other {l : List DoctorLabelRow}
    {img mv pid uid id₀ a b c d : Nat} {isP : Bool} {comment : Option String}
    {now : Nat} (hne : ¬(img = a ∧ mv = b ∧ pid = c ∧ uid = d)) :
    (l ++ [(⟨id₀, img, mv, pid, isP, comment, uid, now⟩ :
        DoctorLabelRow)]).countP (dlMatches a b c d) =
      l.countP (dlMatches a b c d) := by
  rw [List.countP_append, List.countP_singleton]
  have h : ¬ dlMatches a b c d
      (⟨id₀, img, mv, pid, isP, comment, uid, now⟩ : DoctorLabelRow) = true := by
    simp only [dlMatches, Bool.and_eq_true, beq_iff_eq]
    intro hcon
    exact hne ⟨hcon.1.1.1, hcon.1.1.2, hcon.1.2, hcon.2⟩
  rw [if_neg h, Nat.add_zero]

theorem dlValues_insert_other {l : List DoctorLabelRow}
    {img mv pid uid id₀ a b c d : Nat} {isP isP' : Bool}
    {comment : Option String} {now now' : Nat}
    (hne : ¬(img = a ∧ mv = b ∧ pid = c ∧ uid = d))
    (hv : DLValues l a b c d isP' now') :
    DLValues (l ++ [(⟨id₀, img, mv, pid, isP, comment, uid, now⟩ :
      DoctorLabelRow)]) a b c d isP' now' := by
  intro s hs hmatch
  rcases List.mem_append.1 hs with h | h
  · exact hv s h hmatch
  · exfalso
    rw [List.mem_singleton.1 h] at hmatch
    simp only [dlMatches, Bool.and_eq_true, beq_iff_eq] at hmatch
    exact hne ⟨hmatch.1.1.1, hmatch.1.1.2, hmatch.1.2, hmatch.2⟩

theorem dlValues_update_other {l : List DoctorLabelRow}
    {img mv pid uid a b c d : Nat} {isP isP' : Bool} {comment : Option String}
    {now now' : Nat} (hne : ¬(img = a ∧ mv = b ∧ pid = c ∧ uid = d))
    (hv : DLValues l a b c d isP' now') :
    DLValues (updateFirstDL img mv pid uid isP comment now l) a b c d
      isP' now' := by
  intro s hs hmatch
  rcases mem_updateFirstDL hs with h | ⟨hm, _, _⟩
  · exact hv s h hmatch
  · exfalso
    simp only [dlMatches, Bool.and_eq_true, beq_iff_eq] at hm hmatch
    obtain ⟨⟨⟨e1, e2⟩, e3⟩, e4⟩ := hm
    obtain ⟨⟨⟨f1, f2⟩, f3⟩, f4⟩ := hmatch
    exact hne ⟨by omega, by omega, by omega, by omega⟩

theorem upsertDL_unique {db : DB} {now img mv pid uid : Nat} {isP : Bool}
    {comment : Option String} (hU : UniqueDLKeys db.doctorLabels) :
    UniqueDLKeys (upsertDoctorLabel db now img mv pid uid isP comment).doctorLabels := by
  rcases h : db.doctorLabels.find? (dlMatches img mv pid uid) with _ | ex
  · simp only [upsertDoctorLabel, h]
    exact uniqueDL_insert hU h
  · simp only [upsertDoctorLabel, h]
    exact uniqueDL_updateFirst hU

theorem upsertDL_self {db : DB} {now img mv pid uid : Nat} {isP : Bool}
    {comment : Option String} (hU : UniqueDLKeys db.doctorLabels) :
    dlKeyCount (upsertDoctorLabel db now img mv pid uid isP comment).doctorLabels
        img mv pid uid = 1 ∧
      DLValues (upsertDoctorLabel db now img mv pid uid isP comment).doctorLabels
        img mv pid uid isP now := by
  rcases h : db.doctorLabels.find? (dlMatches img mv pid uid) with _ | ex
  · simp only [upsertDoctorLabel, h]
    exact ⟨dlCount_insert_self h, dlValues_insert h⟩
  · simp only [upsertDoctorLabel, h]
    constructor
    · rw [dlKeyCount, countP_updateFirstDL]
      have h1 : 0 < db.doctorLabels.countP (dlMatches img mv pid uid) :=
        List.countP_pos_iff.2 ⟨ex, List.mem_of_find?_eq_some h, List.find?_some h⟩
      have h3 := hU img mv pid uid
      rw [dlKeyCount] at h3
      omega
    · exact dlValues_updateFirstDL (hU img mv pid uid)

theorem upsertDL_other {db : DB} {now img mv pid uid a b c d : Nat}
    {isP isP' : Bool} {comment : Option String} {now' : Nat}
    (hne : ¬(img = a ∧ mv = b ∧ pid = c ∧ uid = d)) :
    dlKeyCount (upsertDoctorLabel db now img mv pid uid isP comment).doctorLabels
        a b c d = dlKeyCount db.doctorLabels a b c d ∧
      (DLValues db.doctorLabels a b c d isP' now' →
        DLValues (upsertDoctorLabel db now img mv pid uid isP comment).doctorLabels
          a b c d isP' now') := by
  rcases h : db.doctorLabels.find? (dlMatches img mv pid uid) with _ | ex
  · simp only [upsertDoctorLabel, h]
    exact ⟨dlCount_insert_other hne, fun hv => dlValues_insert_other hne hv⟩
  · simp only [upsertDoctorLabel, h]
    constructor
    · rw [dlKeyCount, dlKeyCount, countP_updateFirstDL]
    · exact fun hv => dlValues_update_other hne hv

/-! ### The label loop of `update_doctor_labels` -/

theorem applyDL_cons_err {now imageId mvId uid : Nat} {comment : Option String}
    {db : DB} {code : String} {isP : Bool} {rest : List (String × Bool)}
    (hres : resolvePathology db code = none) :
    applyDoctorLabels now imageId mvId uid comment db ((code, isP) :: rest) =
      .error (.unknownPathology code) := by
  simp [applyDoctorLabels, hres]

theorem applyDL_cons_some {now imageId mvId uid : Nat} {comment : Option String}
    {db : DB} {code : String} {isP : Bool} {rest : List (String × Bool)}
    {pa : PathologyRow} (hres : resolvePathology db code = some pa) :
    applyDoctorLabels now imageId mvId uid comment db ((code, isP) :: rest) =
      applyDoctorLabels now imageId mvId uid comment
        (upsertDoctorLabel db now imageId mvId pa.id uid isP comment) rest := by
  simp [applyDoctorLabels, hres]

theorem applyDL_frame {now imageId mvId uid : Nat} {comment : Option String} :
    ∀ (labels : List (String × Bool)) (db db' : DB),
      applyDoctorLabels now imageId mvId uid comment db labels = .ok db' →
      db'.images = db.images ∧ db'.pathologies = db.pathologies ∧
        db'.modelVersions = db.modelVersions ∧ db'.users = db.users := by
  intro labels
  induction labels with
  | nil =>
    intro db db' h
    rw [show applyDoctorLabels now imageId mvId uid comment db [] = .ok db from rfl] at h
    cases h
    exact ⟨rfl, rfl, rfl, rfl⟩
  | cons hd rest ih =>
    intro db db' h
    obtain ⟨code, isP⟩ := hd
    rcases hres : resolvePathology db code with _ | pa
    · rw [applyDL_cons_err hres] at h
      cases h
    · rw [applyDL_cons_some hres] at h
      have hr := ih _ _ h
      have hf := upsertDoctorLabel_frame db now imageId mvId pa.id uid isP comment
      exact ⟨hr.1.trans hf.1, hr.2.1.trans hf.2.1, hr.2.2.1.trans hf.2.2.1,
        hr.2.2.2.trans hf.2.2.2.1⟩

theorem applyDL_error {now imageId mvId uid : Nat} {comment : Option String} :
    ∀ (labels : List (String × Bool)) (db : DB),
      (∃ p ∈ labels, resolvePathology db p.1 = none) →
      ∃ c, applyDoctorLabels now imageId mvId uid comment db labels =
          .error (.unknownPathology c) ∧ resolvePathology db c = none := by
  intro labels
  induction labels with
  | nil =>
    intro db h
    obtain ⟨p, hp, -⟩ := h
    cases hp
  | cons hd rest ih =>
    intro db h
    obtain ⟨code, isP⟩ := hd
    rcases hres : resolvePathology db code with _ | pa
    · exact ⟨code, applyDL_cons_err hres, hres⟩
    · obtain ⟨p, hp, hpn⟩ := h
      rcases List.mem_cons.1 hp with heq | hmem
      · exfalso
        rw [heq] at hpn
        rw [hres] at hpn
        cases hpn
      · have hpath :=
          (upsertDoctorLabel_frame db now imageId mvId pa.id uid isP comment).2.1
        obtain ⟨c, hc1, hc2⟩ := ih
          (upsertDoctorLabel db now imageId mvId pa.id uid isP comment)
          ⟨p, hmem, by rw [resolvePathology_congr hpath]; exact hpn⟩
        refine ⟨c, ?_, ?_⟩
        · rw [applyDL_cons_some hres]
          exact hc1
        · rw [← resolvePathology_congr hpath]
          exact hc2

theorem applyDL_unique {now imageId mvId uid : Nat} {comment : Option String} :
    ∀ (labels : List (String × Bool)) (db db' : DB),
      applyDoctorLabels now imageId mvId uid comment db labels = .ok db' →
      UniqueDLKeys db.doctorLabels → UniqueDLKeys db'.doctorLabels := by
  intro labels
  induction labels with
  | nil =>
    intro db db' h hU
    rw [show applyDoctorLabels now imageId mvId uid comment db [] = .ok db from rfl] at h
    cases h
    exact hU
  | cons hd rest ih =>
    intro db db' h hU
    obtain ⟨code, isP⟩ := hd
    rcases hres : resolvePathology db code with _ | pa
    · rw [applyDL_cons_err hres] at h
      cases h
    · rw [applyDL_cons_some hres] at h
      exact ih _ _ h (upsertDL_unique hU)

theorem applyDL_other (now imageId mvId uid pid : Nat) (comment : Option String) :
    ∀ (labels : List (String × Bool)) (db db' : DB),
      (∀ p ∈ labels, ∀ pa, resolvePathology db p.1 = some pa → pa.id ≠ pid) →
      applyDoctorLabels now imageId mvId uid comment db labels = .ok db' →
      dlKeyCount db'.doctorLabels imageId mvId pid uid =
          dlKeyCount db.doctorLabels imageId mvId pid uid ∧
        ∀ isP t, DLValues db.doctorLabels imageId mvId pid uid isP t →
          DLValues db'.doctorLabels imageId mvId pid uid isP t := by
  intro labels
  induction labels with
  | nil =>
    intro db db' _ h
    rw [show applyDoctorLabels now imageId mvId uid comment db [] = .ok db from rfl] at h
    cases h
    exact ⟨rfl, fun _ _ hv => hv⟩
  | cons hd rest ih =>
    intro db db' hother h
    obtain ⟨code, isP⟩ := hd
    rcases hres : resolvePathology db code with _ | pa
    · rw [applyDL_cons_err hres] at h
      cases h
    · rw [applyDL_cons_some hres] at h
      have hpa : pa.id ≠ pid := hother (code, isP) (List.mem_cons_self _ _) pa hres
      have hne : ¬(imageId = imageId ∧ mvId = mvId ∧ pa.id = pid ∧ uid = uid) :=
        fun hcon => hpa hcon.2.2.1
      have hpath :=
        (upsertDoctorLabel_frame db now imageId mvId pa.id uid isP comment).2.1
      obtain ⟨hcnt, hval⟩ := ih _ _
        (fun p hp pa' hf => hother p (List.mem_cons_of_mem _ hp) pa'
          (by rw [← resolvePathology_congr hpath]; exact hf)) h
      obtain ⟨ucnt, uval⟩ := @upsertDL_other db now imageId mvId pa.id uid
        imageId mvId pid uid isP true comment 0 hne
      refine ⟨hcnt.trans ucnt, fun isP' t hv => hval isP' t ?_⟩
      obtain ⟨-, uval'⟩ := @upsertDL_other db now imageId mvId pa.id uid
        imageId mvId pid uid isP isP' comment t hne
      exact uval' hv

theorem applyDL_target (now imageId mvId uid : Nat) (comment : Option String) :
    ∀ (labels : List (String × Bool)) (db db' : DB) (c : String) (isP : Bool)
      (pa : PathologyRow),
      UniqueDLKeys db.doctorLabels →
      (db.pathologies.map (·.id)).Nodup →
      (labels.map (fun p => resolvePathology db p.1)).Nodup →
      (c, isP) ∈ labels →
      resolvePathology db c = some pa →
      applyDoctorLabels now imageId mvId uid comment db labels = .ok db' →
      dlKeyCount db'.doctorLabels imageId mvId pa.id uid = 1 ∧
        DLValues db'.doctorLabels imageId mvId pa.id uid isP now := by
  intro labels
  induction labels with
  | nil => intro db db' c isP pa _ _ _ hmem _ _; cases hmem
  | cons hd rest ih =>
    intro db db' c isP pa hU hids hnd hmem hres h
    obtain ⟨c₀, i₀⟩ := hd
    rcases List.mem_cons.1 hmem with heq | hmem'
    · obtain ⟨rfl, rfl⟩ : c = c₀ ∧ isP = i₀ := Prod.ext_iff.1 heq
      rw [applyDL_cons_some hres] at h
      have hpath :=
        (upsertDoctorLabel_frame db now imageId mvId pa.id uid isP comment).2.1
      have hself := @upsertDL_self db now imageId mvId pa.id uid isP comment hU
      have hother : ∀ p ∈ rest, ∀ pa', resolvePathology
          (upsertDoctorLabel db now imageId mvId pa.id uid isP comment) p.1 =
            some pa' → pa'.id ≠ pa.id := by
        intro p hp pa' hf hid
        have hf' : resolvePathology db p.1 = some pa' := by
          rw [← resolvePathology_congr hpath]
          exact hf
        have hnotin : some pa ∉ rest.map (fun p => resolvePathology db p.1) := by
          rw [List.map_cons, List.nodup_cons, hres] at hnd
          exact hnd.1
        have h1 : pa' ∈ db.pathologies := resolvePathology_mem hf'
        have h2 : pa ∈ db.pathologies := resolvePathology_mem hres
        have heqpa : pa' = pa := pathologyRow_id_inj hids h1 h2 hid
        exact hnotin (heqpa ▸ hf' ▸ List.mem_map_of_mem _ hp)
      obtain ⟨hcnt, hval⟩ := applyDL_other now imageId mvId uid pa.id comment
        rest _ _ hother h
      exact ⟨hcnt.trans hself.1, hval isP now hself.2⟩
    · rcases hres₀ : resolvePathology db c₀ with _ | pa₀
      · rw [applyDL_cons_err hres₀] at h
        cases h
      · rw [applyDL_cons_some hres₀] at h
        have hpath := (upsertDoctorLabel_frame db now imageId mvId pa₀.id uid i₀
          comment).2.1
        refine ih _ _ c isP pa (upsertDL_unique hU) ?_ ?_ hmem' ?_ h
        · rw [hpath]
          exact hids
        · rw [List.map_congr_left
            (fun p _ => resolvePathology_congr hpath p.1)]
          rw [List.map_cons, List.nodup_cons] at hnd
          exact hnd.2
        · rw [resolvePathology_congr hpath]
          exact hres

/-! ### `update_doctor_labels` as a whole -/

theorem update_doctor_labels_notFound {db : DB} {now imageId : Nat}
    {labels : List (String × Bool)} {comment : Option String}
    (h : findImage db imageId = none) :
    update_doctor_labels db now imageId labels comment =
      .error (.notFound "Image" imageId) := by
  simp [update_doctor_labels, h]

theorem update_doctor_labels_error_eq {db : DB} {now imageId : Nat}
    {labels : List (String × Bool)} {comment : Option String} {img : ImageRow}
    {e : ApiError} (h : findImage db imageId = some img)
    (h2 : applyDoctorLabels now imageId
        (getOrCreateModelVersion (getOrCreateDefaultDoctor db).1 "mock_v1").2.id
        (getOrCreateDefaultDoctor db).2.id comment
        (getOrCreateModelVersion (getOrCreateDefaultDoctor db).1 "mock_v1").1
        labels = .error e) :
    update_doctor_labels db now imageId labels comment = .error e := by
  simp [update_doctor_labels, h, h2]

theorem update_doctor_labels_ok_eq {db db₃ : DB} {now imageId : Nat}
    {labels : List (String × Bool)} {comment : Option String} {img : ImageRow}
    (h : findImage db imageId = some img)
    (h2 : applyDoctorLabels now imageId
        (getOrCreateModelVersion (getOrCreateDefaultDoctor db).1 "mock_v1").2.id
        (getOrCreateDefaultDoctor db).2.id comment
        (getOrCreateModelVersion (getOrCreateDefaultDoctor db).1 "mock_v1").1
        labels = .ok db₃) :
    update_doctor_labels db now imageId labels comment =
      .ok (setReviewedAt db₃ imageId (some now)) := by
  simp [update_doctor_labels, h, h2]

theorem update_doctor_labels_ok_inv {db db' : DB} {now imageId : Nat}
    {labels : List (String × Bool)} {comment : Option String}
    (h : update_doctor_labels db now imageId labels comment = .ok db') :
    ∃ img db₃, findImage db imageId = some img ∧
      applyDoctorLabels now imageId
        (getOrCreateModelVersion (getOrCreateDefaultDoctor db).1 "mock_v1").2.id
        (getOrCreateDefaultDoctor db).2.id comment
        (getOrCreateModelVersion (getOrCreateDefaultDoctor db).1 "mock_v1").1
        labels = .ok db₃ ∧
      db' = setReviewedAt db₃ imageId (some now) := by
  rcases hfi : findImage db imageId with _ | img
  · rw [update_doctor_labels_notFound hfi] at h
    cases h
  · rcases happ : applyDoctorLabels now imageId
        (getOrCreateModelVersion (getOrCreateDefaultDoctor db).1 "mock_v1").2.id
        (getOrCreateDefaultDoctor db).2.id comment
        (getOrCreateModelVersion (getOrCreateDefaultDoctor db).1 "mock_v1").1
        labels with e | db₃
    · rw [update_doctor_labels_error_eq hfi happ] at h
      cases h
    · rw [update_doctor_labels_ok_eq hfi happ] at h
      cases h
      exact ⟨img, db₃, rfl, rfl, rfl⟩

theorem setReviewedAt_frame (db : DB) (imageId : Nat) (t : Option Nat) :
    (setReviewedAt db imageId t).pathologies = db.pathologies ∧
    (setReviewedAt db imageId t).modelVersions = db.modelVersions ∧
    (setReviewedAt db imageId t).users = db.users ∧
    (setReviewedAt db imageId t).doctorLabels = db.doctorLabels :=
  ⟨rfl, rfl, rfl, rfl⟩

theorem find?_setReviewed (imageId : Nat) (t : Option Nat) :
    ∀ l : List ImageRow,
      (l.map (fun r => if r.id == imageId then { r with reviewed_at := t }
          else r)).find? (fun r => r.id == imageId) =
        (l.find? (fun r => r.id == imageId)).map
          (fun r => { r with reviewed_at := t }) := by
  intro l
  induction l with
  | nil => rfl
  | cons r rs ih =>
    by_cases h : (r.id == imageId) = true
    · have h' : r.id = imageId := by simpa using h
      subst h'
      have hbeq : (r.id == r.id) = true := by simp
      simp only [List.map_cons, hbeq, eq_self_iff_true, if_true,
        List.find?_cons, Option.map_some']
    · have hb : (r.id == imageId) = false := by simpa using h
      simp only [List.map_cons, hb, Bool.false_eq_true, if_false,
        List.find?_cons]
      exact ih

theorem findImage_setReviewedAt (db : DB) (imageId : Nat) (t : Option Nat) :
    findImage (setReviewedAt db imageId t) imageId =
      (findImage db imageId).map (fun r => { r with reviewed_at := t }) := by
  rw [findImage, findImage, setReviewedAt]
  exact find?_setReviewed imageId t db.images

/-! ### Claim C6 -/

/-- C6. A label submission containing at least one label that resolves
neither by code nor by display name fails with the unknown-pathology error
(for some unresolvable label of the batch — the loop stops at the first),
and the committed database is left completely unchanged: no review row of
the batch is applied and the artifact's `reviewed_at` keeps its value
(the transaction of the failed request is rolled back uncommitted). -/
theorem update_doctor_labels_all_or_nothing {db : DB} {now imageId : Nat}
    {labels : List (String × Bool)} {comment : Option String}
    (himg : (findImage db imageId).isSome = true)
    (hbad : ∃ p ∈ labels, resolvePathology db p.1 = none) :
    (∃ c, update_doctor_labels db now imageId labels comment =
        .error (.unknownPathology c) ∧ resolvePathology db c = none) ∧
      run_update_doctor_labels db now imageId labels comment = db := by
  obtain ⟨img, hfi⟩ : ∃ img, findImage db imageId = some img := by
    rcases hfi : findImage db imageId with _ | img
    · rw [hfi] at himg
      cases himg
    · exact ⟨img, rfl⟩
  have hpathU : (getOrCreateModelVersion (getOrCreateDefaultDoctor db).1
      "mock_v1").1.pathologies = db.pathologies :=
    (getOrCreateModelVersion_frame _ _).2.1.trans
      (getOrCreateDefaultDoctor_frame db).2.1
  obtain ⟨p, hp, hpn⟩ := hbad
  obtain ⟨c, hc1, hc2⟩ := applyDL_error labels _
    ⟨p, hp, by rw [resolvePathology_congr hpathU]; exact hpn⟩
  have hc2' : resolvePathology db c = none := by
    rw [← resolvePathology_congr hpathU]
    exact hc2
  have herr := update_doctor_labels_error_eq hfi hc1
  refine ⟨⟨c, herr, hc2'⟩, ?_⟩
  rw [run_update_doctor_labels, herr]

/-- C6 witness: on `c1DB`, submitting the unknown label "Bad Label"
together with a known one fails with the unknown-pathology error and
leaves the committed database unchanged. -/
theorem update_doctor_labels_all_or_nothing_witness :
    (findImage c1DB 1).isSome = true ∧
      (∃ c, update_doctor_labels c1DB 7 1
          [("Cardiomegaly", true), ("Bad Label", false)] none =
          .error (.unknownPathology c) ∧ resolvePathology c1DB c = none) ∧
      run_update_doctor_labels c1DB 7 1
          [("Cardiomegaly", true), ("Bad Label", false)] none = c1DB :=
  ⟨rfl, update_doctor_labels_all_or_nothing rfl
    ⟨("Bad Label", false), by decide, rfl⟩⟩

/-! ### Claim C7 -/

theorem update_doctor_labels_post {db db' : DB} {now imageId : Nat}
    {labels : List (String × Bool)} {comment : Option String}
    (hU : UniqueDLKeys db.doctorLabels)
    (h : update_doctor_labels db now imageId labels comment = .ok db') :
    db'.pathologies = db.pathologies ∧
      (∃ img, findImage db imageId = some img ∧
        findImage db' imageId = some { img with reviewed_at := some now }) ∧
      db'.users.find? (fun r => r.email == "doctor@example.com") =
        some (getOrCreateDefaultDoctor db).2 ∧
      db'.modelVersions.find? (fun r => r.name == "mock_v1") =
        some (getOrCreateModelVersion (getOrCreateDefaultDoctor db).1
          "mock_v1").2 ∧
      UniqueDLKeys db'.doctorLabels := by
  obtain ⟨img, db₃, hfi, happ, hdb'⟩ := update_doctor_labels_ok_inv h
  subst hdb'
  have hframe := applyDL_frame labels _ _ happ
  have hmvframe :=
    getOrCreateModelVersion_frame (getOrCreateDefaultDoctor db).1 "mock_v1"
  have hdframe := getOrCreateDefaultDoctor_frame db
  refine ⟨?_, ⟨img, hfi, ?_⟩, ?_, ?_, ?_⟩
  · rw [(setReviewedAt_frame db₃ imageId (some now)).1, hframe.2.1,
      hmvframe.2.1, hdframe.2.1]
  · rw [findImage_setReviewedAt]
    have h3 : findImage db₃ imageId = some img := by
      rw [findImage_congr (hframe.1.trans (hmvframe.1.trans hdframe.1))]
      exact hfi
    rw [h3]
    rfl
  · rw [show (setReviewedAt db₃ imageId (some now)).users = db₃.users from rfl,
      hframe.2.2.2, hmvframe.2.2.1]
    exact getOrCreateDefaultDoctor_find db
  · rw [show (setReviewedAt db₃ imageId (some now)).modelVersions =
      db₃.modelVersions from rfl, hframe.2.2.1]
    exact getOrCreateModelVersion_find (getOrCreateDefaultDoctor db).1 "mock_v1"
  · have hUM : UniqueDLKeys (getOrCreateModelVersion
        (getOrCreateDefaultDoctor db).1 "mock_v1").1.doctorLabels := by
      rw [hmvframe.2.2.2.2.1, hdframe.2.2.2.2.1]
      exact hU
    have hU₃ := applyDL_unique labels _ _ happ hUM
    rw [show (setReviewedAt db₃ imageId (some now)).doctorLabels =
      db₃.doctorLabels from rfl]
    exact hU₃

/-- C7. For successful annotation submissions, each (label, presence) pair
is upserted keyed by (artifact, model-run, label, reviewer): after a second
successful submission for the same artifact, exactly one review row exists
per resolvable label of the second batch, holding the second batch's
presence value with the refreshed timestamp (last write wins), and the
artifact's `reviewed_at` is set to the second submission's current time.
Hypotheses: the stored review rows initially satisfy the at-most-one-row
invariant, pathology ids are unique, and the second batch's labels resolve
to pairwise distinct pathology rows (Python dict keys, one row per
label). -/
theorem update_doctor_labels_upsert_and_review
    {db₀ db₁ db₂ : DB} {now₁ now₂ imageId : Nat}
    {labels₁ labels₂ : List (String × Bool)} {comment₁ comment₂ : Option String}
    (hU : UniqueDLKeys db₀.doctorLabels)
    (hids : (db₀.pathologies.map (·.id)).Nodup)
    (hnd₂ : (labels₂.map (fun p => resolvePathology db₀ p.1)).Nodup)
    (run1 : update_doctor_labels db₀ now₁ imageId labels₁ comment₁ = .ok db₁)
    (run2 : update_doctor_labels db₁ now₂ imageId labels₂ comment₂ = .ok db₂) :
    ((findImage db₂ imageId).map (·.reviewed_at) = some (some now₂)) ∧
      (∀ c isP pa, (c, isP) ∈ labels₂ → resolvePathology db₀ c = some pa →
        dlKeyCount db₂.doctorLabels imageId
            (getOrCreateModelVersion (getOrCreateDefaultDoctor db₀).1
              "mock_v1").2.id pa.id (getOrCreateDefaultDoctor db₀).2.id = 1 ∧
          DLValues db₂.doctorLabels imageId
            (getOrCreateModelVersion (getOrCreateDefaultDoctor db₀).1
              "mock_v1").2.id pa.id (getOrCreateDefaultDoctor db₀).2.id
            isP now₂) := by
  obtain ⟨hpath₁, ⟨img₁, hfi₀, hfi₁r⟩, husers₁, hmvs₁, hU₁⟩ :=
    update_doctor_labels_post hU run1
  obtain ⟨img₂, db₃, hfi₂, happ₂, hdb₂⟩ := update_doctor_labels_ok_inv run2
  have hdoc : getOrCreateDefaultDoctor db₁ =
      (db₁, (getOrCreateDefaultDoctor db₀).2) :=
    getOrCreateDefaultDoctor_found husers₁
  rw [hdoc] at happ₂
  have happ₂' : applyDoctorLabels now₂ imageId
      (getOrCreateModelVersion db₁ "mock_v1").2.id
      (getOrCreateDefaultDoctor db₀).2.id comment₂
      (getOrCreateModelVersion db₁ "mock_v1").1 labels₂ = .ok db₃ := happ₂
  have hmv : getOrCreateModelVersion db₁ "mock_v1" =
      (db₁, (getOrCreateModelVersion (getOrCreateDefaultDoctor db₀).1
        "mock_v1").2) :=
    getOrCreateModelVersion_found hmvs₁
  rw [hmv] at happ₂'
  have happ₂x : applyDoctorLabels now₂ imageId
      (getOrCreateModelVersion (getOrCreateDefaultDoctor db₀).1 "mock_v1").2.id
      (getOrCreateDefaultDoctor db₀).2.id comment₂ db₁ labels₂ = .ok db₃ :=
    happ₂'
  subst hdb₂
  constructor
  · rw [findImage_setReviewedAt]
    have h3 : findImage db₃ imageId = some img₂ := by
      rw [findImage_congr (applyDL_frame labels₂ _ _ happ₂x).1]
      exact hfi₂
    rw [h3]
    rfl
  · intro c isP pa hcmem hres₀
    have hids₁ : (db₁.pathologies.map (·.id)).Nodup := by
      rw [hpath₁]
      exact hids
    have hnd₂x : (labels₂.map (fun p => resolvePathology db₁ p.1)).Nodup := by
      rw [List.map_congr_left (fun p _ => resolvePathology_congr hpath₁ p.1)]
      exact hnd₂
    have hres₁ : resolvePathology db₁ c = some pa := by
      rw [resolvePathology_congr hpath₁]
      exact hres₀
    have htgt := applyDL_target now₂ imageId
      (getOrCreateModelVersion (getOrCreateDefaultDoctor db₀).1 "mock_v1").2.id
      (getOrCreateDefaultDoctor db₀).2.id comment₂ labels₂ db₁ db₃ c isP pa
      hU₁ hids₁ hnd₂x hcmem hres₁ happ₂x
    rw [show (setReviewedAt db₃ imageId (some now₂)).doctorLabels =
      db₃.doctorLabels from rfl]
    exact htgt

/-- C7 witness: on `c1DB`, submitting Cardiomegaly = true at time 10 and
then Cardiomegaly = false at time 20 leaves the image reviewed at 20 and
exactly one review row for the (image 1, mock_v1, Cardiomegaly, doctor)
key, with `is_present = false` and timestamp 20. -/
theorem update_doctor_labels_upsert_and_review_witness :
    ((findImage (run_update_doctor_labels
        (run_update_doctor_labels c1DB 10 1 [("Cardiomegaly", true)] none)
        20 1 [("Cardiomegaly", false)] none) 1).map (·.reviewed_at) =
      some (some 20)) ∧
      dlKeyCount (run_update_doctor_labels
          (run_update_doctor_labels c1DB 10 1 [("Cardiomegaly", true)] none)
          20 1 [("Cardiomegaly", false)] none).doctorLabels 1
        (getOrCreateModelVersion (getOrCreateDefaultDoctor c1DB).1
          "mock_v1").2.id 2 (getOrCreateDefaultDoctor c1DB).2.id = 1 ∧
      DLValues (run_update_doctor_labels
          (run_update_doctor_labels c1DB 10 1 [("Cardiomegaly", true)] none)
          20 1 [("Cardiomegaly", false)] none).doctorLabels 1
        (getOrCreateModelVersion (getOrCreateDefaultDoctor c1DB).1
          "mock_v1").2.id 2 (getOrCreateDefaultDoctor c1DB).2.id false 20 := by
  have h := @update_doctor_labels_upsert_and_review c1DB
    (run_update_doctor_labels c1DB 10 1 [("Cardiomegaly", true)] none)
    (run_update_doctor_labels
      (run_update_doctor_labels c1DB 10 1 [("Cardiomegaly", true)] none)
      20 1 [("Cardiomegaly", false)] none)
    10 20 1 [("Cardiomegaly", true)] [("Cardiomegaly", false)] none none
    (fun _ _ _ _ => Nat.zero_le 1) (by decide) (by decide) (by rfl) (by rfl)
  exact ⟨h.1, h.2 "Cardiomegaly" false ⟨2, "Cardiomegaly", "Cardiomegaly"⟩
    (List.mem_singleton.2 rfl) rfl⟩

end FlowerHackathon
